import Mathlib

/-!
Verification of the nightrunner-lib command-interpretation core.

This file gives a shallow embedding, in Lean 4, of the parts of the
nightrunner-lib Rust sources that the verified properties speak about:

* the data model (`config/mod.rs`, `config/rooms.rs`, `config/directions.rs`);
* the action classification (`parser/action.rs`: `Action::is_valid`,
  `Action::action_type`, `extract_item`);
* the interpreter (`parser/interpreter.rs`: `handle_event`,
  `return_formated_message`, `extract_item_subject`, `pick_item`,
  `drop_item`, `show_inventory`, `handle_movement`);
* the utilities (`util/mod.rs`: `parse_room_text`,
  `process_templated_text`, `player_receive_item`, `player_remove_item`,
  `player_get_item`, `move_to_direction`).

Strings are modelled as lists of characters (`Str`).  Rust `&mut`
mutation is modelled by explicit state passing: a handler returns the
result together with the state as it is observable by the caller
afterwards (on `Err` as well, since the Rust handlers mutate the shared
`State` in place and an early `return Err` keeps the mutations already
performed).  A Rust `panic!`/`unwrap` failure is modelled by the
distinguished error value `NRError.panicked`.
-/

namespace Nightrunner

/-- Strings are modelled as lists of characters. -/
abbrev Str := List Char

/-- Turns a Lean string literal into the model string type. -/
def str (s : String) : Str := s.toList

/-- Mirrors `config/directions.rs`: enum `Directions`. -/
inductive Directions where
  | east | north | south | west | up | down
deriving DecidableEq, Repr

/-- Mirrors the `Display` impl for `Directions` in `config/directions.rs`. -/
def Directions.display : Directions → Str
  | .north => str "north"
  | .south => str "south"
  | .east => str "east"
  | .west => str "west"
  | .up => str "up"
  | .down => str "down"

/-- Mirrors `config/mod.rs`: enum `VerbFunction`. -/
inductive VerbFunction where
  | quit | help | look | inventory | take | drop | talk | normal
deriving DecidableEq, Repr

/-- Mirrors `config/mod.rs`: struct `Verb` (id, names, verb_function). -/
structure Verb where
  id : Nat
  names : List Str
  verb_function : VerbFunction
deriving DecidableEq, Repr

/-- Mirrors `config/mod.rs`: struct `Item` (id, name, description, can_pick). -/
structure Item where
  id : Nat
  name : Str
  description : Str
  can_pick : Bool
deriving DecidableEq, Repr

/-- Mirrors `config/mod.rs`: struct `Subject` (id, name, description, default_text). -/
structure Subject where
  id : Nat
  name : Str
  description : Str
  default_text : Str
deriving DecidableEq, Repr

/-- Mirrors `config/mod.rs`: struct `Narrative` (id, text, description). -/
structure Narrative where
  id : Nat
  text : Str
  description : Str
deriving DecidableEq, Repr

/-- Mirrors `config/mod.rs`: struct `Event`.  The bookkeeping fields
`name` and `description` (unused by the interpreter) are omitted. -/
structure Event where
  id : Nat
  location : Nat
  destination : Option Nat
  narrative : Option Nat
  required_verb : Option Nat
  required_subject : Option Nat
  required_item : Option Nat
  completed : Bool
  add_item : Option Nat
  remove_old_narrative : Bool
  narrative_after : Option Nat
  remove_item : Option Nat
  required_events : List Nat
  add_subject : Option Nat
  remove_subject : Bool
  move_subject_to_location : Option Nat
deriving DecidableEq, Repr

/-- Mirrors `config/rooms.rs`: struct `Exits` (room_id, direction). -/
structure Exits where
  room_id : Nat
  direction : Directions
deriving DecidableEq, Repr

/-- Mirrors `config/mod.rs`: struct `Storage` (the live item list of a
room stash or of the player inventory). -/
structure Storage where
  items : List Item
deriving DecidableEq, Repr

/-- Mirrors `Storage::add_item` in `config/mod.rs`. -/
def Storage.add_item (s : Storage) (item : Item) : Storage :=
  { s with items := s.items ++ [item] }

/-- Removes the element at a position, mirroring `Vec::remove`. -/
def listRemoveAt {α : Type} : List α → Nat → List α
  | [], _ => []
  | _ :: xs, 0 => xs
  | x :: xs, n + 1 => x :: listRemoveAt xs n

/-- Mirrors `Storage::remove_item` in `config/mod.rs` (lines 1017-1035):
looks up the first stored item with the *same name* as the argument,
removes it and returns it; fails with `NoItem` when no item of that name
is stored.  `Option` stands for the Rust `NRResult` here (the only error
is `NoItem`). -/
def Storage.remove_item (s : Storage) (item : Item) : Option (Item × Storage) :=
  match s.items.findIdx? (fun i => decide (i.name = item.name)) with
  | some item_index =>
      match s.items.get? item_index with
      | some found => some (found, { s with items := listRemoveAt s.items item_index })
      | none => none
  | none => none

/-- Mirrors `config/mod.rs`: struct `Player` (inventory). -/
structure Player where
  inventory : Storage
deriving DecidableEq, Repr

/-- Mirrors the `Room` struct as used by `parser/interpreter.rs`:
per-room live subject list, stash, event list, narrative id, exits. -/
structure Room where
  id : Nat
  description : Str
  exits : List Exits
  stash : Storage
  events : List Event
  narrative : Nat
  subjects : List Subject
deriving DecidableEq, Repr

/-- Modelled from the spec: "if `remove_subject` set, remove the bound
subject from the current room".  `Room::remove_subject` itself is not
in the provided sources (only its callers in `handle_event` are): it
drops the subjects with the given id from the live subject list. -/
def Room.remove_subject (room : Room) (subject_id : Nat) : Room :=
  { room with subjects := room.subjects.filter (fun s => decide (s.id ≠ subject_id)) }

/-- Modelled from the spec: "if `add_subject` set, add that subject (by
id lookup in the static catalog) to the current room".
`Room::add_subject` itself is not in the provided sources (only its
callers in `handle_event` are): it appends the subject to the live
subject list. -/
def Room.add_subject (room : Room) (subject : Subject) : Room :=
  { room with subjects := room.subjects ++ [subject] }

/-- Mirrors `Room::can_move` in `config/rooms.rs`: the first exit with
the requested direction, if any. -/
def Room.can_move (room : Room) (direction : Directions) : Option Nat :=
  match room.exits.filter (fun exit => decide (exit.direction = direction)) with
  | [] => none
  | e :: _ => some e.room_id

/-- Mirrors `config/mod.rs`: struct `Config`, restricted to the static
catalogs that the embedded functions read (the lexical-filter tables
`allowed_prepositions`/`allowed_determiners`/`allowed_movements`/
`allowed_directions` and the `intro` text are only used by
`Action::parse` and the front-end, which are not embedded). -/
structure Config where
  allowed_verbs : List Verb
  items : List Item
  subjects : List Subject
  narratives : List Narrative
  events : List Event
deriving DecidableEq, Repr

/-- Mirrors `config/mod.rs`: struct `State` (current room id, player,
live room list, static configuration).  The `input` field is omitted:
no embedded function reads it. -/
structure State where
  current_room : Nat
  player : Player
  rooms : List Room
  config : Config
deriving DecidableEq, Repr

/-- Mirrors `parser/action.rs`: struct `Action`. -/
structure Action where
  verb : Option Verb
  subject : Option Subject
  item : Option Item
  movement : Option Directions
  command_tokens : List Str
  input : Str
deriving DecidableEq, Repr

/-- Mirrors `Action::is_valid` in `parser/action.rs` (lines 100-110),
including the `|| self.verb.is_some()` disjunct of the source. -/
def Action.is_valid (a : Action) : Bool :=
  if a.verb.isSome then
    a.item.isSome || a.subject.isSome || a.movement.isSome || a.verb.isSome
  else
    a.movement.isSome

/-- Mirrors `parser/action.rs`: enum `ActionType`. -/
inductive ActionType where
  | verb | verbSubject | verbItem | verbItemSubject | invalid | movement
deriving DecidableEq, Repr

/-- Mirrors `Action::action_type` in `parser/action.rs` (lines 112-126). -/
def Action.action_type (a : Action) : ActionType :=
  if a.is_valid && a.verb.isSome && a.item.isSome && a.subject.isSome then
    .verbItemSubject
  else if a.is_valid && a.verb.isSome && a.subject.isSome then
    .verbSubject
  else if a.is_valid && a.verb.isSome && a.item.isSome then
    .verbItem
  else if a.is_valid && a.verb.isSome then
    .verb
  else if a.is_valid && a.movement.isSome then
    .movement
  else
    .invalid

/-- Mirrors `parser/errors.rs`: the typed failures that the interpreter
returns.  `panicked` additionally marks the places where the Rust code
would `unwrap`/`panic!` (a process abort, not a typed error). -/
inductive NRError where
  | requiredEventNotCompleted
  | invalidEvent
  | invalidItem
  | invalidSubject
  | invalidVerb
  | invalidMovement
  | invalidDirection
  | invalidRoom
  | invalidNarrative
  | noRoom
  | cantPick
  | noItem
  | emptyInput
  | invalidAction
  | panicked
deriving DecidableEq, Repr

/-- Mirrors the `Display` impl of `NoItem` in `parser/errors.rs`:
the apostrophe is spelled via its character code. -/
def noItemText : Str := str "You" ++ [Char.ofNat 39] ++ str "re not carrying that."

/-- Mirrors `EventMessage` of `parser/interpreter.rs`.  The Rust
`message_parts` hashmap always holds exactly the three keys `RoomText`,
`EventText` and `Exits`; it is modelled by three fields. -/
structure EventMessage where
  message : Str
  room_text : Str
  event_text : Str
  exits : Str
  templated_words : List Str
deriving DecidableEq, Repr

/-- Mirrors the `ParsingResult` enum of the library root (its variants
are pinned down by the callers in `src`: `Help`, `Look`, `NewItem`,
`DropItem`, `Inventory`, `SubjectNoEvent`, `EventSuccess`, `Quit`). -/
inductive ParsingResult where
  | help (text : Str)
  | look (text : Str)
  | newItem (text : Str)
  | dropItem (text : Str)
  | inventory (text : Str)
  | subjectNoEvent (text : Str)
  | eventSuccess (message : EventMessage)
  | quit
deriving DecidableEq, Repr

/-- Result type of the interpreter functions (`NRResult` in `lib.rs`). -/
abbrev NRResult := Except NRError ParsingResult

deriving instance DecidableEq for Except

/-! ### Narrative templating (`util/mod.rs`) -/

/-- Splits a string at every newline character; a string with `n`
newlines yields `n + 1` segments. -/
def splitNL : Str → List Str
  | [] => [[]]
  | c :: cs =>
      if c = '\n' then [] :: splitNL cs
      else
        match splitNL cs with
        | [] => [[c]]
        | seg :: rest => (c :: seg) :: rest

/-- Drops one trailing carriage return, mirroring how Rust
`str::lines` treats a `\r\n` line ending. -/
def stripCR (s : Str) : Str :=
  match s.getLast? with
  | some '\r' => s.dropLast
  | _ => s

/-- Mirrors Rust `str::lines` as used by `process_templated_text`:
split at `\n`, drop the optional final empty segment produced by a
trailing newline, and strip the `\r` of a `\r\n` ending from every
newline-terminated segment. -/
def rustLines (cs : Str) : List Str :=
  let segs := splitNL cs
  if segs.getLast? = some [] then segs.dropLast.map stripCR
  else segs.dropLast.map stripCR ++ [(segs.getLast?).getD []]

/-- One capture of the non-greedy regex `\{(.*?)\}` of
`process_templated_text`: start offset of the match, (exclusive) end
offset of the match, and the enclosed text.  The leftmost match starts
at the first opening brace and ends at the first closing brace after
it. -/
def findCapture (cs : Str) : Option (Nat × Nat × Str) :=
  match cs.findIdx? (fun c => decide (c = '{')) with
  | none => none
  | some s =>
      let rest := cs.drop (s + 1)
      match rest.findIdx? (fun c => decide (c = '}')) with
      | none => none
      | some k => some (s, s + k + 2, rest.take k)

/-- All captures of `\{(.*?)\}` on one line, with offsets relative to
the line start, in left-to-right order (the order `captures_iter`
yields them).  The fuel argument only serves structural recursion; it
is always called with the line length, which bounds the number of
matches. -/
def capturesFrom : Nat → Str → List (Nat × Nat × Str)
  | 0, _ => []
  | fuel + 1, cs =>
      match findCapture cs with
      | none => []
      | some (s, e, t) =>
          (s, e, t) :: (capturesFrom fuel (cs.drop e)).map
            (fun c => (c.1 + e, c.2.1 + e, c.2.2))

/-- The capture list of one line (`templated_word_captures` in
`process_templated_text`). -/
def captures (cs : Str) : List (Nat × Nat × Str) :=
  capturesFrom cs.length cs

/-- One replacement step of the capture loop in
`process_templated_text`:
`extracted_text[..start] ++ text ++ extracted_text[end..]`. -/
def replaceCap (cap : Nat × Nat × Str) (txt : Str) : Str :=
  txt.take cap.1 ++ cap.2.2 ++ txt.drop cap.2.1

/-- The body of the per-line loop of `process_templated_text`: the
captures are consumed in reverse order (`TemplateCapturesIter::next`
pops from the back of the capture vector, `util/mod.rs` lines 69-91);
each capture is splice-replaced by its enclosed text, and the enclosed
text is recorded when it occurs in the highlight corpus. -/
def processLine (items_and_subjects : List Str) (sentence : Str) : Str × List Str :=
  let caps := captures sentence
  if caps.length > 0 then
    (caps.reverse).foldl
      (fun acc cap =>
        if cap.2.2 ∈ items_and_subjects then
          (replaceCap cap acc.1, acc.2 ++ [cap.2.2])
        else
          (replaceCap cap acc.1, acc.2))
      (sentence, [])
  else
    (sentence, [])

/-- Joins lines with newlines (Rust `join("\n")`). -/
def joinNL (lines : List Str) : Str :=
  List.intercalate ['\n'] lines

/-- Mirrors `process_templated_text` in `util/mod.rs` (lines 341-380):
line by line, finds every `{...}` span via non-greedy brace matching,
strips the braces, and records the enclosed word when it occurs in the
highlight corpus.  Returns the processed text and the recorded words
(in push order: lines first to last, captures of a line back to
front). -/
def process_templated_text (text : Str) (items_and_subjects : List Str) :
    Str × List Str :=
  let processed := (rustLines text).map (processLine items_and_subjects)
  (joinNL (processed.map Prod.fst), (processed.map Prod.snd).flatten)

/-- Follows the words of the spec, for comparison with the source
function: "finds every `{...}` span via non-greedy brace matching; ...
the brace markers are stripped" — each line is rebuilt left to right
with every matched span replaced by its enclosed text.  The fuel
argument only serves structural recursion and is called with the line
length. -/
def specStripLineFrom : Nat → Str → Str
  | 0, cs => cs
  | fuel + 1, cs =>
      match findCapture cs with
      | none => cs
      | some (s, e, t) => cs.take s ++ t ++ specStripLineFrom fuel (cs.drop e)

/-- Spec-side line stripping (see `specStripLineFrom`). -/
def specStripLine (cs : Str) : Str :=
  specStripLineFrom cs.length cs

/-- Spec-side whole-text stripping: every line has all its brace spans
replaced by their enclosed text. -/
def specStripText (text : Str) : Str :=
  joinNL ((rustLines text).map specStripLine)

/-- The enclosed texts of all brace spans of all lines of a text. -/
def captureTexts (text : Str) : List Str :=
  ((rustLines text).map (fun line => (captures line).map (fun c => c.2.2))).flatten


/-! ### Small list helpers shared by the embedding -/

/-- Applies `f` to the first list element satisfying `p`, mirroring a
Rust `iter_mut().find(...)` followed by a mutation of the found
element. -/
def updateFirst {α : Type} (p : α → Bool) (f : α → α) : List α → List α
  | [] => []
  | x :: xs => if p x then f x :: xs else x :: updateFirst p f xs

/-- Byte-wise lexicographic order on strings, mirroring the order Rust
`sort_unstable` uses on `Vec<String>`. -/
def strLe : Str → Str → Bool
  | [], _ => true
  | _ :: _, [] => false
  | a :: l1, b :: l2 =>
      if a.toNat < b.toNat then true
      else if b.toNat < a.toNat then false
      else strLe l1 l2

/-- Insertion into a sorted list, for `sortStrs`. -/
def insertSorted (x : Str) : List Str → List Str
  | [] => [x]
  | y :: ys => if strLe x y then x :: y :: ys else y :: insertSorted x ys

/-- Sorts strings ascending (the effect of `sort_unstable` on the
`templated_words` vector, equal strings being interchangeable). -/
def sortStrs : List Str → List Str
  | [] => []
  | x :: xs => insertSorted x (sortStrs xs)

/-- Removes consecutive duplicates, mirroring `Vec::dedup`. -/
def dedupConsec : List Str → List Str
  | [] => []
  | [a] => [a]
  | a :: b :: rest =>
      if a = b then dedupConsec (b :: rest) else a :: dedupConsec (b :: rest)

/-! ### Player and movement utilities (`util/mod.rs`) -/

/-- Mirrors `player_receive_item` as used by `handle_event`: the item
is appended to the player inventory and a "You now have ..." fragment
is returned. -/
def player_receive_item (st : State) (item : Item) : State × Str :=
  ({ st with player := { st.player with inventory := st.player.inventory.add_item item } },
   str "\nYou now have a " ++ item.name ++ str "\n")

/-- Mirrors `player_remove_item` (`util/mod.rs` lines 130-141): removes
the item from the player inventory (by name, via
`Storage::remove_item`), failing with `NoItem` when absent; on success
returns a "You no longer have ..." fragment. -/
def player_remove_item (player : Player) (item : Item) :
    Except NRError (Player × Str) :=
  match player.inventory.remove_item item with
  | some (old_item, inventory) =>
      .ok ({ player with inventory := inventory },
           str "\nYou no longer have a " ++ old_item.name ++ str "\n")
  | none => .error .noItem

/-- Mirrors `player_get_item` (`util/mod.rs` lines 101-118): removes
the item from the current room stash and adds the removed item to the
player inventory.  The `unwrap` on the current-room lookup is modelled
by `panicked`. -/
def player_get_item (st : State) (item : Item) : NRResult × State :=
  match st.rooms.find? (fun room => decide (room.id = st.current_room)) with
  | none => (.error .panicked, st)
  | some current_room =>
      match current_room.stash.remove_item item with
      | some (removed, stash) =>
          let st1 := { st with
            rooms := updateFirst (fun room => decide (room.id = st.current_room))
              (fun room => { room with stash := stash }) st.rooms }
          let st2 := { st1 with
            player := { st1.player with inventory := st1.player.inventory.add_item removed } }
          (.ok (.newItem (str "\nYou now have a " ++ removed.name ++ str "\n")), st2)
      | none => (.error .noItem, st)

/-- Mirrors `move_to_direction` (`util/mod.rs` lines 160-177): look up
an exit of the current room in the requested direction and set the
current room to its destination. -/
def move_to_direction (st : State) (direction : Directions) :
    Except NRError State :=
  match st.rooms.find? (fun room => decide (room.id = st.current_room)) with
  | none => .error .noRoom
  | some current_room =>
      match current_room.can_move direction with
      | some room_id => .ok { st with current_room := room_id }
      | none => .error .invalidMovement

/-! ### Room text rendering (`util/mod.rs`) -/

/-- The exit lines of `parse_room_text`: for every exit of the current
room, "to the (direction) you see (description of the destination)",
or the empty string when the destination room id is unknown. -/
def exitsVec (st : State) (current_room : Room) : List Str :=
  current_room.exits.map (fun exit =>
    match st.rooms.find? (fun room => decide (room.id = exit.room_id)) with
    | some room => str "to the " ++ exit.direction.display ++ str " you see " ++ room.description
    | none => [])

/-- The highlight corpus of `parse_room_text`: names of the player
inventory items, the current room stash items, the add/remove items of
the event context, and the current room subjects, in this order. -/
def itemsAndSubjects (st : State) (current_room : Room) (event_id : Option Nat) :
    List Str :=
  let player_items := st.player.inventory.items.map (fun item => item.name)
  let room_items := current_room.stash.items.map (fun item => item.name)
  let room_subjects := current_room.subjects.map (fun subject => subject.name)
  let event := st.config.events.find? (fun event => decide (some event.id = event_id))
  let event_items :=
    match event with
    | none => []
    | some event =>
        (match event.add_item with
         | some item_id =>
             match st.config.items.find? (fun item => decide (item.id = item_id)) with
             | some item => [item.name]
             | none => []
         | none => []) ++
        (match event.remove_item with
         | some item_id =>
             match st.config.items.find? (fun item => decide (item.id = item_id)) with
             | some item => [item.name]
             | none => []
         | none => [])
  player_items ++ room_items ++ event_items ++ room_subjects

/-- Mirrors `parse_room_text` (`util/mod.rs` lines 238-339): templates
the narrative text and the event message against the highlight corpus,
renders the exits block, and assembles the `EventMessage` with its
three parts and the sorted, deduplicated templated-word list. -/
def parse_room_text (st : State) (narrative_text : Str) (event_message : Str)
    (event_id : Option Nat) : Except NRError EventMessage :=
  match st.rooms.find? (fun room => decide (room.id = st.current_room)) with
  | none => .error .invalidRoom
  | some current_room =>
      let exits_vec := exitsVec st current_room
      let exits_string :=
        match exits_vec with
        | [] => []
        | _ => str "Exits:\n" ++ joinNL exits_vec
      let corpus := itemsAndSubjects st current_room event_id
      let room_pair := process_templated_text narrative_text corpus
      let event_pair := process_templated_text event_message corpus
      let message :=
        room_pair.1 ++ str "\n" ++ event_pair.1 ++ str "\n\n" ++ exits_string
      .ok {
        message := message
        room_text := room_pair.1
        event_text := event_pair.1
        exits := exits_string
        templated_words := dedupConsec (sortStrs (room_pair.2 ++ event_pair.2)) }

/-! ### Event resolution (`parser/interpreter.rs`) -/

/-- Mirrors `extract_item_subject` (`interpreter.rs` lines 509-547):
the action item survives only when an inventory item has its id, the
action subject only when a subject of the current room has its id. -/
def extract_item_subject (st : State) (action : Action) :
    Option Item × Option Subject :=
  match st.rooms.find? (fun room => decide (room.id = st.current_room)) with
  | none => (none, none)
  | some current_room =>
      let inventory_item :=
        match action.item with
        | none => none
        | some item =>
            if st.player.inventory.items.any (fun player_item => decide (player_item.id = item.id))
            then some item else none
      let subject :=
        match action.subject with
        | none => none
        | some action_subject =>
            if current_room.subjects.any (fun s => decide (s.id = action_subject.id))
            then some action_subject else none
      (inventory_item, subject)

/-- Mirrors the three candidate filters of `handle_event`
(`interpreter.rs` lines 189-286): the room events whose required
verb/subject/item ids match exactly the shape of what the action
actually binds. -/
def filter_events (current_room : Room) (action : Action)
    (inventory_item : Option Item) (subject : Option Subject) : List Event :=
  match action.verb, subject, inventory_item with
  | some verb, some subject, some inventory_item =>
      current_room.events.filter (fun event =>
        match event.required_verb, event.required_subject, event.required_item with
        | some required_verb_id, some required_subject_id, some required_item_id =>
            decide (required_item_id = inventory_item.id) &&
            decide (required_verb_id = verb.id) &&
            decide (required_subject_id = subject.id)
        | _, _, _ => false)
  | some verb, some subject, none =>
      current_room.events.filter (fun event =>
        match event.required_verb, event.required_subject with
        | some required_verb_id, some required_subject_id =>
            decide (required_verb_id = verb.id) &&
            decide (required_subject_id = subject.id) &&
            event.required_item.isNone
        | _, _ => false)
  | some verb, none, some inventory_item =>
      current_room.events.filter (fun event =>
        match event.required_verb, event.required_item with
        | some required_verb_id, some required_item_id =>
            decide (required_verb_id = verb.id) &&
            decide (required_item_id = inventory_item.id) &&
            event.required_subject.isNone
        | _, _ => false)
  | _, _, _ => []

/-- Mirrors the candidate selection of `handle_event` (`interpreter.rs`
lines 292-301): the first filtered room event whose id denotes an
uncompleted event in the static event catalog. -/
def first_uncompleted (config_events : List Event) (events : List Event) :
    Option Event :=
  events.find? (fun room_event =>
    match config_events.find? (fun state_event => decide (state_event.id = room_event.id)) with
    | some event => !event.completed
    | none => false)

/-- Mirrors the prerequisite check of `handle_event` (`interpreter.rs`
lines 322-328): all catalog events whose id is listed in
`required_events` are completed. -/
def required_events_completed (config_events : List Event) (event : Event) : Bool :=
  (config_events.filter (fun e => decide (e.id ∈ event.required_events))).all
    (fun e => e.completed)

/-- Step (a) of the effects of `handle_event` (`interpreter.rs` lines
333-338): when `add_item` is set and names a catalog item, give that
item to the player and record the received-item fragment. -/
def apply_add_item (st : State) (event : Event) : State × List Str :=
  match event.add_item with
  | some item_id =>
      match st.config.items.find? (fun i => decide (i.id = item_id)) with
      | some item =>
          let received := player_receive_item st item
          (received.1, [received.2])
      | none => (st, [])
  | none => (st, [])

/-- Step (b) of the effects of `handle_event` (`interpreter.rs` lines
340-359): the `remove_item` id is re-read from the static catalog entry
of the event (failing with `InvalidEvent` when the event id is
unknown); an id absent from the item catalog skips the arm.  A failed
removal takes the source's `Err` arm, whose
`downcast::<Box<NoItem>>()` can never match the singly-boxed `NoItem`
that `Storage::remove_item` raises (the erased type is `NoItem`, not
`Box<NoItem>`), so its `.unwrap()` panics — modelled by `panicked`. -/
def apply_remove_item (st : State) (event : Event) :
    Except NRError (State × List Str) :=
  match st.config.events.find? (fun state_event => decide (state_event.id = event.id)) with
  | none => .error .invalidEvent
  | some config_event =>
      match config_event.remove_item with
      | some item_id =>
          match st.config.items.find? (fun i => decide (i.id = item_id)) with
          | some item =>
              match player_remove_item st.player item with
              | .ok (player, message) => .ok ({ st with player := player }, [message])
              | .error _ => .error .panicked
          | none => .ok (st, [])
      | none => .ok (st, [])

/-- Step (c) of the effects of `handle_event` (`interpreter.rs` lines
361-388): when `remove_subject` is set, the bound subject is required
(`InvalidEvent` otherwise) and is removed from the current room; with
`move_subject_to_location` set it is re-added to the target room, whose
lookup is an `unwrap` in the source (modelled by `panicked`; the
current-room lookup cannot fail here, since the entry lookup of
`handle_event` succeeded and room ids are unchanged).  On failure the
state mutated so far accompanies the error. -/
def apply_subject_effects (st : State) (current_room_id : Nat)
    (subject : Option Subject) (event : Event) : Except (NRError × State) State :=
  if event.remove_subject then
    match subject with
    | none => .error (.invalidEvent, st)
    | some event_subject =>
        match event.move_subject_to_location with
        | some location =>
            if (updateFirst (fun room => decide (room.id = current_room_id))
                (fun room => room.remove_subject event_subject.id) st.rooms).any
                  (fun room => decide (room.id = location)) then
              .ok { st with
                rooms := updateFirst (fun room => decide (room.id = location))
                  (fun room => room.add_subject event_subject)
                  (updateFirst (fun room => decide (room.id = current_room_id))
                    (fun room => room.remove_subject event_subject.id) st.rooms) }
            else
              .error (.panicked, { st with
                rooms := updateFirst (fun room => decide (room.id = current_room_id))
                  (fun room => room.remove_subject event_subject.id) st.rooms })
        | none =>
            .ok { st with
              rooms := updateFirst (fun room => decide (room.id = current_room_id))
                (fun room => room.remove_subject event_subject.id) st.rooms }
  else
    .ok st

/-- Step (d) of the effects of `handle_event` (`interpreter.rs` lines
389-402): when `add_subject` is set, the subject is looked up in the
static catalog (an `unwrap` in the source, modelled by `panicked`) and
added to the current room. -/
def apply_add_subject (st : State) (current_room_id : Nat) (event : Event) :
    Except (NRError × State) State :=
  match event.add_subject with
  | some new_subject_id =>
      match st.config.subjects.find? (fun s => decide (s.id = new_subject_id)) with
      | none => .error (.panicked, st)
      | some new_subject =>
          .ok { st with
            rooms := updateFirst (fun room => decide (room.id = current_room_id))
              (fun room => room.add_subject new_subject) st.rooms }
  | none => .ok st

/-- Mirrors `State::set_narrative` (`config/mod.rs` lines 931-938). -/
def State.set_narrative (st : State) (narrative_id : Nat) : State :=
  { st with
    rooms := updateFirst (fun room => decide (room.id = st.current_room))
      (fun room => { room with narrative := narrative_id }) st.rooms }

/-- Step (e) of the effects of `handle_event` (`interpreter.rs` lines
414-424): when `remove_old_narrative` is set and a `narrative_after` is
present, it becomes the current room narrative. -/
def apply_narrative_swap (st : State) (event : Event) : State :=
  if event.remove_old_narrative then
    match event.narrative_after with
    | some narrative_after => st.set_narrative narrative_after
    | none => st
  else st

/-- Mirrors the event-message assembly of `handle_event`
(`interpreter.rs` lines 426-432): the non-empty fragments joined with
the empty separator. -/
def assembleEventMessage (msgs : List Str) : Str :=
  (msgs.filter (fun s => !s.isEmpty)).flatten

/-- Mirrors `return_formated_message` (`interpreter.rs` lines 452-507):
the outgoing message is rendered from the narrative the *event* names
(failing with `InvalidNarrative` when the event has none or it is not
in the catalog); the narrative-concatenation branch of the source is
commented out there. -/
def return_formated_message (event : Event) (st : State) (event_message : Str) :
    Except NRError ParsingResult :=
  match st.config.narratives.find? (fun narrative =>
      match event.narrative with
      | some narrative_id => decide (narrative.id = narrative_id)
      | none => false) with
  | some narrative =>
      match parse_room_text st narrative.text event_message (some event.id) with
      | .ok new_room_text => .ok (.eventSuccess new_room_text)
      | .error e => .error e
  | none => .error .invalidNarrative

/-- Mirrors the completion step of `handle_event` (`interpreter.rs`
lines 438-448): when the event id is found in the static catalog, the
player is moved to the destination (when set on the catalog entry) and
the catalog entry is marked completed. -/
def complete_event_step (st : State) (event : Event) : State :=
  match st.config.events.find? (fun state_event => decide (state_event.id = event.id)) with
  | some config_event =>
      let st1 :=
        if config_event.destination.isSome then
          { st with current_room := config_event.destination.getD st.current_room }
        else st
      { st1 with
        config := { st1.config with
          events := updateFirst (fun state_event => decide (state_event.id = event.id))
            (fun state_event => { state_event with completed := true }) st1.config.events } }
  | none => st

/-- Mirrors `handle_event` (`interpreter.rs` lines 173-450): find the
current room, bind the reachable item/subject, filter the candidate
events by shape, select the first uncompleted candidate (the source
guards the selection with a non-emptiness test whose two `None` paths
take the same subject fallback taken here), check prerequisites, apply
the effect steps (a)-(e), render the outgoing message, and finally mark
the event completed and move the player to the event destination.  The
second component is the state observable by the caller afterwards, on
errors as well. -/
def handle_event (st : State) (action : Action) : NRResult × State :=
  match st.rooms.find? (fun room => decide (room.id = st.current_room)) with
  | none => (.error .invalidRoom, st)
  | some current_room =>
      let extracted := extract_item_subject st action
      let subject := extracted.2
      let events := filter_events current_room action extracted.1 subject
      match first_uncompleted st.config.events events with
      | none =>
          match subject with
          | some subject => (.ok (.subjectNoEvent subject.default_text), st)
          | none => (.error .invalidEvent, st)
      | some event =>
          if required_events_completed st.config.events event then
            let step_a := apply_add_item st event
            match apply_remove_item step_a.1 event with
            | .error e => (.error e, step_a.1)
            | .ok step_b =>
                let msgs := step_a.2 ++ step_b.2
                match apply_subject_effects step_b.1 st.current_room subject event with
                | .error err_state => (.error err_state.1, err_state.2)
                | .ok st_c =>
                    match apply_add_subject st_c st.current_room event with
                    | .error err_state => (.error err_state.1, err_state.2)
                    | .ok st_d =>
                        let st_e := apply_narrative_swap st_d event
                        let event_message := assembleEventMessage msgs
                        match return_formated_message event st_e event_message with
                        | .error e => (.error e, st_e)
                        | .ok result => (.ok result, complete_event_step st_e event)
          else
            (.error .requiredEventNotCompleted, st)

/-! ### Item handlers and inventory rendering (`parser/interpreter.rs`) -/

/-- Mirrors `pick_item` (`interpreter.rs` lines 575-591): the item must
be in the current room stash (`NoItem`) and pickable (`CantPick`);
then `player_get_item` moves it from the stash to the inventory. -/
def pick_item (st : State) (item : Item) : NRResult × State :=
  match st.rooms.find? (fun room => decide (room.id = st.current_room)) with
  | none => (.error .noRoom, st)
  | some current_room =>
      if item ∈ current_room.stash.items then
        if item.can_pick then player_get_item st item
        else (.error .cantPick, st)
      else (.error .noItem, st)

/-- Mirrors `drop_item` (`interpreter.rs` lines 593-616): the item must
be in the player inventory (`NoItem`); `player_remove_item` takes it
out and the action item is added to the current room stash. -/
def drop_item (st : State) (item : Item) : NRResult × State :=
  match st.rooms.find? (fun room => decide (room.id = st.current_room)) with
  | none => (.error .noRoom, st)
  | some _ =>
      if item ∈ st.player.inventory.items then
        match player_remove_item st.player item with
        | .ok (player, message) =>
            let st1 := { st with player := player }
            let st2 := { st1 with
              rooms := updateFirst (fun room => decide (room.id = st.current_room))
                (fun room => { room with stash := room.stash.add_item item }) st1.rooms }
            (.ok (.dropItem message), st2)
        | .error _ => (.error .noItem, st)
      else (.error .noItem, st)

/-- Mirrors `handle_movement` (`interpreter.rs` lines 137-171): move in
the requested direction, then re-render the narrative of the room
arrived in together with its exits listing. -/
def handle_movement (st : State) (movement : Option Directions) : NRResult × State :=
  match movement with
  | none => (.error .invalidDirection, st)
  | some direction =>
      match move_to_direction st direction with
      | .error e => (.error e, st)
      | .ok st1 =>
          match st1.rooms.find? (fun room => decide (room.id = st1.current_room)) with
          | none => (.error .invalidRoom, st1)
          | some current_room =>
              match st1.config.narratives.find? (fun n => decide (n.id = current_room.narrative)) with
              | none => (.error .invalidNarrative, st1)
              | some narrative =>
                  match parse_room_text st1 narrative.text [] none with
                  | .ok new_room_text => (.ok (.eventSuccess new_room_text), st1)
                  | .error e => (.error e, st1)

theorem findIdx?_some_lt {α : Type} {l : List α} {p : α → Bool} {i : Nat}
    (h : l.findIdx? p = some i) : i < l.length := by
  rw [List.findIdx?_eq_some_iff_findIdx_eq] at h
  exact h.1

theorem findIdx?_some_get {α : Type} {l : List α} {p : α → Bool} {i : Nat}
    (h : l.findIdx? p = some i) : ∃ a, l.get? i = some a ∧ p a = true := by
  rw [List.findIdx?_eq_some_iff_findIdx_eq] at h
  obtain ⟨hlt, hidx⟩ := h
  refine ⟨l.get ⟨i, hlt⟩, ?_, ?_⟩
  · simp [List.get?_eq_getElem?, List.getElem?_eq_getElem hlt]
  · subst hidx
    simpa [List.get_eq_getElem] using List.findIdx_getElem (w := hlt)

theorem get?_mem_of_eq_some {α : Type} {l : List α} {i : Nat} {a : α}
    (h : l.get? i = some a) : a ∈ l := by
  rw [List.get?_eq_getElem?] at h
  exact List.getElem?_mem h

theorem mem_listRemoveAt {α : Type} {l : List α} {n : Nat} {x : α}
    (h : x ∈ listRemoveAt l n) : x ∈ l := by
  induction l generalizing n with
  | nil => simp [listRemoveAt] at h
  | cons a as ih =>
      cases n with
      | zero => exact List.mem_cons_of_mem a h
      | succ m =>
          rcases List.mem_cons.mp h with h | h
          · exact h ▸ List.mem_cons_self a as
          · exact List.mem_cons_of_mem a (ih h)

theorem mem_of_mem_listRemoveAt_or_eq {α : Type} {l : List α} {n : Nat} {x a : α}
    (hget : l.get? n = some a) (hx : x ∈ l) : x ∈ listRemoveAt l n ∨ x = a := by
  induction l generalizing n with
  | nil => cases hx
  | cons b bs ih =>
      cases n with
      | zero =>
          simp only [List.get?] at hget
          rcases List.mem_cons.mp hx with h | h
          · exact Or.inr (by rw [h]; exact Option.some.inj hget)
          · exact Or.inl h
      | succ m =>
          simp only [List.get?] at hget
          rcases List.mem_cons.mp hx with h | h
          · exact Or.inl (h ▸ List.mem_cons_self b (listRemoveAt bs m))
          · rcases ih hget h with h2 | h2
            · exact Or.inl (List.mem_cons_of_mem b h2)
            · exact Or.inr h2

theorem updateFirst_map {α β : Type} {p : α → Bool} {f : α → α} {g : α → β}
    (hg : ∀ x, g (f x) = g x) : ∀ l : List α, (updateFirst p f l).map g = l.map g := by
  intro l
  induction l with
  | nil => rfl
  | cons x xs ih =>
      simp only [updateFirst]
      split
      · simp [hg]
      · simp [ih]

theorem room_find?_isSome {l : List Room} {c : Nat} :
    (l.find? (fun room => decide (room.id = c))).isSome = true ↔ c ∈ l.map Room.id := by
  rw [List.find?_isSome]
  constructor
  · rintro ⟨room, hmem, hp⟩
    rw [decide_eq_true_eq] at hp
    exact hp ▸ List.mem_map_of_mem Room.id hmem
  · intro hmem
    rcases List.mem_map.mp hmem with ⟨room, hmem, hid⟩
    exact ⟨room, hmem, by simp [hid]⟩

/-! ### Claim C5: validity of parsed actions -/

/-- A sample verb for the concrete instances below. -/
def sampleVerb : Verb := { id := 1, names := [str "do"], verb_function := .normal }

/-- An action carrying only a verb: item, subject and movement are all
absent. -/
def verbOnlyAction : Action :=
  { verb := some sampleVerb, subject := none, item := none, movement := none,
    command_tokens := [str "do"], input := str "do" }

/-- C5, counterexample: the claim states that an `Action` whose verb is
`Some` but whose item, subject and movement are all `None` is *not*
valid; on the source `is_valid` (whose first branch ends in
`|| self.verb.is_some()`) such an action *is* valid. -/
theorem c5_counterexample : verbOnlyAction.is_valid = true := by decide

/-- C5, amended: `is_valid` returns true iff the verb field is `Some`
(regardless of the other fields) or the verb field is `None` and the
movement field is `Some`; equivalently, iff a verb or a movement is
present. -/
theorem c5_is_valid_iff (a : Action) :
    a.is_valid = (a.verb.isSome || a.movement.isSome) := by
  unfold Action.is_valid
  cases hv : a.verb <;> simp [hv]

/-! ### State-evolution lemmas for the effect stages of `handle_event` -/

theorem apply_add_item_rooms (st : State) (ev : Event) :
    (apply_add_item st ev).1.rooms = st.rooms := by
  unfold apply_add_item player_receive_item
  split
  · split <;> rfl
  · rfl

theorem apply_add_item_config (st : State) (ev : Event) :
    (apply_add_item st ev).1.config = st.config := by
  unfold apply_add_item player_receive_item
  split
  · split <;> rfl
  · rfl

theorem apply_add_item_current (st : State) (ev : Event) :
    (apply_add_item st ev).1.current_room = st.current_room := by
  unfold apply_add_item player_receive_item
  split
  · split <;> rfl
  · rfl

theorem apply_remove_item_ok {st : State} {ev cev : Event}
    (hcfg : st.config.events.find? (fun e => decide (e.id = ev.id)) = some cev)
    (hrm : ∀ iid, cev.remove_item = some iid →
      ∀ it, st.config.items.find? (fun i => decide (i.id = iid)) = some it →
      (st.player.inventory.remove_item it).isSome = true) :
    ∃ st2 msgs, apply_remove_item st ev = .ok (st2, msgs) ∧
      st2.rooms = st.rooms ∧ st2.config = st.config ∧
      st2.current_room = st.current_room := by
  simp only [apply_remove_item, hcfg]
  cases hrem : cev.remove_item with
  | none => exact ⟨st, [], rfl, rfl, rfl, rfl⟩
  | some iid =>
      simp only
      cases hit : st.config.items.find? (fun i => decide (i.id = iid)) with
      | none => exact ⟨st, [], rfl, rfl, rfl, rfl⟩
      | some it =>
          simp only [player_remove_item]
          cases hpr : st.player.inventory.remove_item it with
          | none =>
              have hs := hrm iid hrem it hit
              rw [hpr] at hs
              exact absurd hs (by simp)
          | some pr =>
              obtain ⟨pl, msg⟩ := pr
              exact ⟨_, _, rfl, rfl, rfl, rfl⟩

theorem apply_subject_effects_ok (st : State) (cur : Nat) (subject : Option Subject)
    (ev : Event)
    (hsub : ev.remove_subject = true → ∃ s, subject = some s)
    (hloc : ∀ loc, ev.move_subject_to_location = some loc → loc ∈ st.rooms.map Room.id) :
    ∃ st2, apply_subject_effects st cur subject ev = .ok st2 ∧
      st2.rooms.map Room.id = st.rooms.map Room.id ∧
      st2.rooms.map Room.stash = st.rooms.map Room.stash ∧
      st2.config = st.config ∧ st2.current_room = st.current_room ∧
      st2.player = st.player := by
  simp only [apply_subject_effects]
  cases hrs : ev.remove_subject with
  | false => exact ⟨st, rfl, rfl, rfl, rfl, rfl, rfl⟩
  | true =>
      obtain ⟨s, hs⟩ := hsub hrs
      simp only [hs, Bool.true_eq_false, if_true, if_false]
      cases hmv : ev.move_subject_to_location with
      | none =>
          refine ⟨_, rfl, ?_, ?_, rfl, rfl, rfl⟩
          · exact updateFirst_map (f := fun room => room.remove_subject s.id)
              (g := Room.id) (fun room => rfl) st.rooms
          · exact updateFirst_map (f := fun room => room.remove_subject s.id)
              (g := Room.stash) (fun room => rfl) st.rooms
      | some loc =>
          simp only
          have hids : (updateFirst (fun room => decide (room.id = cur))
              (fun room => room.remove_subject s.id) st.rooms).map Room.id
              = st.rooms.map Room.id :=
            updateFirst_map (f := fun room => room.remove_subject s.id)
              (g := Room.id) (fun room => rfl) st.rooms
          have hany : (updateFirst (fun room => decide (room.id = cur))
              (fun room => room.remove_subject s.id) st.rooms).any
              (fun room => decide (room.id = loc)) = true := by
            rw [List.any_eq_true]
            have hmem := hloc loc hmv
            rw [← hids] at hmem
            rcases List.mem_map.mp hmem with ⟨room, hroom, hid⟩
            exact ⟨room, hroom, by simp [hid]⟩
          rw [if_pos hany]
          refine ⟨_, rfl, ?_, ?_, rfl, rfl, rfl⟩
          · rw [updateFirst_map (f := fun room => room.add_subject s)
                (g := Room.id) (fun room => rfl), hids]
          · rw [updateFirst_map (f := fun room => room.add_subject s)
                (g := Room.stash) (fun room => rfl),
              updateFirst_map (f := fun room => room.remove_subject s.id)
                (g := Room.stash) (fun room => rfl)]

theorem apply_add_subject_ok (st : State) (cur : Nat) {ev : Event}
    (hadd : ∀ sid, ev.add_subject = some sid →
      (st.config.subjects.find? (fun s => decide (s.id = sid))).isSome = true) :
    ∃ st2, apply_add_subject st cur ev = .ok st2 ∧
      st2.rooms.map Room.id = st.rooms.map Room.id ∧
      st2.rooms.map Room.stash = st.rooms.map Room.stash ∧
      st2.config = st.config ∧ st2.current_room = st.current_room ∧
      st2.player = st.player := by
  simp only [apply_add_subject]
  cases has : ev.add_subject with
  | none => exact ⟨st, rfl, rfl, rfl, rfl, rfl, rfl⟩
  | some sid =>
      simp only
      cases hf : st.config.subjects.find? (fun s => decide (s.id = sid)) with
      | none =>
          have hsome := hadd sid has
          rw [hf] at hsome
          simp at hsome
      | some new_subject =>
          refine ⟨_, rfl, ?_, ?_, rfl, rfl, rfl⟩
          · exact updateFirst_map (f := fun room => room.add_subject new_subject)
              (g := Room.id) (fun room => rfl) st.rooms
          · exact updateFirst_map (f := fun room => room.add_subject new_subject)
              (g := Room.stash) (fun room => rfl) st.rooms

theorem apply_narrative_swap_ids (st : State) (ev : Event) :
    (apply_narrative_swap st ev).rooms.map Room.id = st.rooms.map Room.id := by
  unfold apply_narrative_swap State.set_narrative
  split
  · split
    · rename_i nid heq
      exact updateFirst_map (f := fun room => { room with narrative := nid })
        (g := Room.id) (fun room => rfl) st.rooms
    · rfl
  · rfl

theorem apply_narrative_swap_stash (st : State) (ev : Event) :
    (apply_narrative_swap st ev).rooms.map Room.stash = st.rooms.map Room.stash := by
  unfold apply_narrative_swap State.set_narrative
  split
  · split
    · rename_i nid heq
      exact updateFirst_map (f := fun room => { room with narrative := nid })
        (g := Room.stash) (fun room => rfl) st.rooms
    · rfl
  · rfl

theorem apply_narrative_swap_config (st : State) (ev : Event) :
    (apply_narrative_swap st ev).config = st.config := by
  unfold apply_narrative_swap State.set_narrative
  split
  · split <;> rfl
  · rfl

theorem apply_narrative_swap_current (st : State) (ev : Event) :
    (apply_narrative_swap st ev).current_room = st.current_room := by
  unfold apply_narrative_swap State.set_narrative
  split
  · split <;> rfl
  · rfl

theorem apply_narrative_swap_player (st : State) (ev : Event) :
    (apply_narrative_swap st ev).player = st.player := by
  unfold apply_narrative_swap State.set_narrative
  split
  · split <;> rfl
  · rfl

theorem parse_room_text_ok {st : State}
    (h : (st.rooms.find? (fun room => decide (room.id = st.current_room))).isSome = true)
    (a b : Str) (c : Option Nat) : ∃ em, parse_room_text st a b c = .ok em := by
  simp only [parse_room_text]
  cases hf : st.rooms.find? (fun room => decide (room.id = st.current_room)) with
  | none => rw [hf] at h ; simp at h
  | some room => exact ⟨_, rfl⟩

theorem return_formated_message_ok {ev : Event} {st : State} (msg : Str) {nar : Narrative}
    (hnar : st.config.narratives.find? (fun narrative =>
        match ev.narrative with
        | some narrative_id => decide (narrative.id = narrative_id)
        | none => false) = some nar)
    (hroom : (st.rooms.find? (fun room => decide (room.id = st.current_room))).isSome = true) :
    ∃ em, return_formated_message ev st msg = .ok (.eventSuccess em) := by
  simp only [return_formated_message, hnar]
  obtain ⟨em, hem⟩ := parse_room_text_ok hroom nar.text msg (some ev.id)
  rw [hem]
  exact ⟨em, rfl⟩

/-! ### Claims C3 and C4: candidate selection and prerequisites -/

theorem required_events_completed_false {cfg : List Event} {ev : Event}
    (h : ∃ e ∈ cfg, e.id ∈ ev.required_events ∧ e.completed = false) :
    required_events_completed cfg ev = false := by
  obtain ⟨e, hmem, hreq, hc⟩ := h
  apply Bool.eq_false_iff.mpr
  intro hall
  rw [required_events_completed, List.all_eq_true] at hall
  have := hall e (List.mem_filter.mpr ⟨hmem, by simp [hreq]⟩)
  rw [hc] at this
  exact Bool.false_ne_true this

theorem required_events_completed_true {cfg : List Event} {ev : Event}
    (h : ∀ e ∈ cfg, e.id ∈ ev.required_events → e.completed = true) :
    required_events_completed cfg ev = true := by
  rw [required_events_completed, List.all_eq_true]
  intro e he
  rw [List.mem_filter] at he
  exact h e he.1 (by simpa using he.2)

/-- C3: when no uncompleted candidate event exists for the action's
shape in the current room, `handle_event` returns
`SubjectNoEvent(default_text)` of the bound subject (an `Ok` result)
when a subject is bound, and the `InvalidEvent` error when no subject
is bound; the state is unchanged either way. -/
theorem c3_no_candidate_fallback (st : State) (act : Action) (room : Room)
    (hroom : st.rooms.find? (fun r => decide (r.id = st.current_room)) = some room)
    (hsel : first_uncompleted st.config.events
        (filter_events room act (extract_item_subject st act).1
          (extract_item_subject st act).2) = none) :
    (∀ s, (extract_item_subject st act).2 = some s →
        handle_event st act = (.ok (.subjectNoEvent s.default_text), st)) ∧
    ((extract_item_subject st act).2 = none →
        handle_event st act = (.error .invalidEvent, st)) := by
  constructor
  · intro s hs
    simp only [handle_event, hroom]
    simp only [hsel]
    simp only [hs]
  · intro hs
    simp only [handle_event, hroom]
    simp only [hsel]
    simp only [hs]

/-- C4: for a selected uncompleted candidate event, if some catalog
event listed in its `required_events` is uncompleted, the action fails
with `RequiredEventNotCompleted` and the state is unchanged; and when
all listed catalog events are completed (and the event references a
catalog entry, a `remove_item` it carries can in fact be removed from
the post-`add_item` inventory — the source's failed-removal arm is a
guaranteed panic, see C6 — its subject effects are satisfiable, and
its narrative exists), the resolution proceeds and succeeds with an
`EventSuccess` result. -/
theorem c4_required_events_gate (st : State) (act : Action) (room : Room) (ev : Event)
    (hroom : st.rooms.find? (fun r => decide (r.id = st.current_room)) = some room)
    (hsel : first_uncompleted st.config.events
        (filter_events room act (extract_item_subject st act).1
          (extract_item_subject st act).2) = some ev) :
    ((∃ e ∈ st.config.events, e.id ∈ ev.required_events ∧ e.completed = false) →
        handle_event st act = (.error .requiredEventNotCompleted, st)) ∧
    ((∀ e ∈ st.config.events, e.id ∈ ev.required_events → e.completed = true) →
      ∀ cev, st.config.events.find? (fun e => decide (e.id = ev.id)) = some cev →
      (∀ iid, cev.remove_item = some iid →
        ∀ it, st.config.items.find? (fun i => decide (i.id = iid)) = some it →
        ((apply_add_item st ev).1.player.inventory.remove_item it).isSome = true) →
      (ev.remove_subject = true → ∃ s, (extract_item_subject st act).2 = some s) →
      (∀ loc, ev.move_subject_to_location = some loc → loc ∈ st.rooms.map Room.id) →
      (∀ sid, ev.add_subject = some sid →
          (st.config.subjects.find? (fun s => decide (s.id = sid))).isSome = true) →
      ∀ nar, st.config.narratives.find? (fun narrative =>
          match ev.narrative with
          | some narrative_id => decide (narrative.id = narrative_id)
          | none => false) = some nar →
      ∃ em st2, handle_event st act = (.ok (.eventSuccess em), st2)) := by
  constructor
  · intro hx
    have hreq := required_events_completed_false hx
    simp only [handle_event, hroom]
    simp only [hsel]
    rw [if_neg (by rw [hreq]; exact Bool.false_ne_true)]
  · intro hall cev hcev hrm hsub hloc hadd nar hnar
    have hreq := required_events_completed_true hall
    have hA_rooms := apply_add_item_rooms st ev
    have hA_cfg := apply_add_item_config st ev
    have hA_cur := apply_add_item_current st ev
    have hcevA : (apply_add_item st ev).1.config.events.find?
        (fun e => decide (e.id = ev.id)) = some cev := by
      rw [hA_cfg]; exact hcev
    have hrmA : ∀ iid, cev.remove_item = some iid →
        ∀ it, (apply_add_item st ev).1.config.items.find?
          (fun i => decide (i.id = iid)) = some it →
        ((apply_add_item st ev).1.player.inventory.remove_item it).isSome = true := by
      intro iid hiid it hit
      rw [hA_cfg] at hit
      exact hrm iid hiid it hit
    obtain ⟨stB, msgsB, hB, hB_rooms, hB_cfg, hB_cur⟩ := apply_remove_item_ok hcevA hrmA
    have hlocB : ∀ loc, ev.move_subject_to_location = some loc →
        loc ∈ stB.rooms.map Room.id := by
      intro loc hl
      rw [hB_rooms, hA_rooms]
      exact hloc loc hl
    obtain ⟨stC, hC, hC_ids, hC_stash, hC_cfg, hC_cur, hC_pl⟩ :=
      apply_subject_effects_ok stB st.current_room
        (extract_item_subject st act).2 ev hsub hlocB
    have haddC : ∀ sid, ev.add_subject = some sid →
        (stC.config.subjects.find? (fun s => decide (s.id = sid))).isSome = true := by
      intro sid hsid
      rw [hC_cfg, hB_cfg, hA_cfg]
      exact hadd sid hsid
    obtain ⟨stD, hD, hD_ids, hD_stash, hD_cfg, hD_cur, hD_pl⟩ :=
      apply_add_subject_ok stC st.current_room haddC
    have hnarE : (apply_narrative_swap stD ev).config.narratives.find?
        (fun narrative =>
          match ev.narrative with
          | some narrative_id => decide (narrative.id = narrative_id)
          | none => false) = some nar := by
      rw [apply_narrative_swap_config, hD_cfg, hC_cfg, hB_cfg, hA_cfg]
      exact hnar
    have hcurmem : st.current_room ∈ st.rooms.map Room.id := by
      apply room_find?_isSome.mp
      rw [hroom]
      rfl
    have hroomE : ((apply_narrative_swap stD ev).rooms.find?
        (fun r => decide (r.id = (apply_narrative_swap stD ev).current_room))).isSome
          = true := by
      rw [room_find?_isSome, apply_narrative_swap_current, hD_cur, hC_cur, hB_cur, hA_cur,
        apply_narrative_swap_ids, hD_ids, hC_ids, hB_rooms, hA_rooms]
      exact hcurmem
    obtain ⟨em, hem⟩ := return_formated_message_ok
      (assembleEventMessage ((apply_add_item st ev).2 ++ msgsB)) hnarE hroomE
    refine ⟨em, complete_event_step (apply_narrative_swap stD ev) ev, ?_⟩
    simp only [handle_event, hroom]
    simp only [hsel]
    rw [if_pos hreq]
    simp only [hB, hC, hD, hem]

/-- A sample subject (id 1, default text "dt"). -/
def subjectOne : Subject :=
  { id := 1, name := str "s", description := str "sd", default_text := str "dt" }

/-- A sample talk verb (id 8). -/
def verbTalk : Verb := { id := 8, names := [str "talk"], verb_function := .talk }

/-- A sample normal verb (id 9). -/
def verbHug : Verb := { id := 9, names := [str "hug"], verb_function := .normal }

/-- A sample narrative (id 1). -/
def narOne : Narrative := { id := 1, text := str "R", description := str "n" }

/-- A room (id 1) holding `subjectOne` and no events. -/
def roomNoEvents : Room :=
  { id := 1, description := str "room one", exits := [], stash := ⟨[]⟩,
    events := [], narrative := 1, subjects := [subjectOne] }

/-- A state whose current room has no events. -/
def stateNoEvents : State :=
  { current_room := 1, player := ⟨⟨[]⟩⟩, rooms := [roomNoEvents],
    config := { allowed_verbs := [verbTalk], items := [], subjects := [subjectOne],
                narratives := [narOne], events := [] } }

/-- The action "talk subjectOne". -/
def actionTalkSubject : Action :=
  { verb := some verbTalk, subject := some subjectOne, item := none, movement := none,
    command_tokens := [str "talk", str "s"], input := str "talk s" }

/-- The action "talk" with no subject bound. -/
def actionTalkBare : Action :=
  { verb := some verbTalk, subject := none, item := none, movement := none,
    command_tokens := [str "talk"], input := str "talk" }

/-- C3, witness: with no candidate event, "talk s" with the subject in
the room yields `SubjectNoEvent` with its default text, and the same
verb with no subject bound yields the `InvalidEvent` error. -/
theorem c3_witness :
    handle_event stateNoEvents actionTalkSubject
      = (.ok (.subjectNoEvent (str "dt")), stateNoEvents) ∧
    handle_event stateNoEvents actionTalkBare
      = (.error .invalidEvent, stateNoEvents) :=
  ⟨(c3_no_candidate_fallback stateNoEvents actionTalkSubject roomNoEvents rfl rfl).1
      subjectOne rfl,
   (c3_no_candidate_fallback stateNoEvents actionTalkBare roomNoEvents rfl rfl).2 rfl⟩

/-- The gated event: triggered by verb 9 on subject 1, requiring event
4 to be completed first. -/
def eventTwo : Event :=
  { id := 2, location := 1, destination := none, narrative := some 1,
    required_verb := some 9, required_subject := some 1, required_item := none,
    completed := false, add_item := none, remove_old_narrative := false,
    narrative_after := none, remove_item := none, required_events := [4],
    add_subject := none, remove_subject := false, move_subject_to_location := none }

/-- The prerequisite event (id 4), completed or not. -/
def eventFour (c : Bool) : Event :=
  { id := 4, location := 1, destination := none, narrative := some 1,
    required_verb := some 8, required_subject := some 1, required_item := none,
    completed := c, add_item := none, remove_old_narrative := false,
    narrative_after := none, remove_item := none, required_events := [],
    add_subject := none, remove_subject := false, move_subject_to_location := none }

/-- A room holding both events and `subjectOne`. -/
def roomGate (c : Bool) : Room :=
  { id := 1, description := str "room one", exits := [], stash := ⟨[]⟩,
    events := [eventTwo, eventFour c], narrative := 1, subjects := [subjectOne] }

/-- A state with the gated event, the prerequisite completed or not. -/
def stateGate (c : Bool) : State :=
  { current_room := 1, player := ⟨⟨[]⟩⟩, rooms := [roomGate c],
    config := { allowed_verbs := [verbHug, verbTalk], items := [],
                subjects := [subjectOne], narratives := [narOne],
                events := [eventTwo, eventFour c] } }

/-- The action "hug subjectOne" (verb 9 on subject 1). -/
def actionHug : Action :=
  { verb := some verbHug, subject := some subjectOne, item := none, movement := none,
    command_tokens := [str "hug", str "s"], input := str "hug s" }

/-- C4, witness: the identical trigger input fails with
`RequiredEventNotCompleted` while event 4 is uncompleted and succeeds
once event 4 is completed. -/
theorem c4_witness :
    handle_event (stateGate false) actionHug
      = (.error .requiredEventNotCompleted, stateGate false) ∧
    ∃ em st2, handle_event (stateGate true) actionHug
      = (.ok (.eventSuccess em), st2) :=
  ⟨(c4_required_events_gate (stateGate false) actionHug (roomGate false) eventTwo
      rfl rfl).1 ⟨eventFour false, by decide, by decide, rfl⟩,
   (c4_required_events_gate (stateGate true) actionHug (roomGate true) eventTwo
      rfl rfl).2 (by decide) eventTwo rfl
      (fun iid h => Option.noConfusion h)
      (fun h => absurd h (by decide))
      (fun loc h => Option.noConfusion h)
      (fun sid h => Option.noConfusion h)
      narOne rfl⟩

/-! ### Claim C1: atomicity of event resolution -/

/-- A pickable catalog item (id 1). -/
def itemOne : Item :=
  { id := 1, name := str "i", description := str "idesc", can_pick := true }

/-- An event that grants item 1 but names no narrative: composing the
outgoing message fails with `InvalidNarrative` after the inventory
effect has been applied. -/
def eventAddItemNoNarrative : Event :=
  { id := 1, location := 1, destination := none, narrative := none,
    required_verb := some 8, required_subject := some 1, required_item := none,
    completed := false, add_item := some 1, remove_old_narrative := false,
    narrative_after := none, remove_item := none, required_events := [],
    add_subject := none, remove_subject := false, move_subject_to_location := none }

/-- A state whose current room carries `eventAddItemNoNarrative`. -/
def stateAddItemNoNarrative : State :=
  { current_room := 1, player := ⟨⟨[]⟩⟩,
    rooms := [{ id := 1, description := str "room one", exits := [], stash := ⟨[]⟩,
                events := [eventAddItemNoNarrative], narrative := 1,
                subjects := [subjectOne] }],
    config := { allowed_verbs := [verbTalk], items := [itemOne],
                subjects := [subjectOne], narratives := [narOne],
                events := [eventAddItemNoNarrative] } }

/-- C1: the claim states that when event resolution fails with any
error, the caller-observable state is identical to the state before the
action.  On this input `handle_event` fails with `InvalidNarrative`,
yet the caller-observable state differs from the initial state: the
`add_item` effect (item 1 now in the inventory) survives the failure.
Only the completed flag is indeed unchanged. -/
theorem c1_partial_state_on_failure :
    (handle_event stateAddItemNoNarrative actionTalkSubject).1
      = .error .invalidNarrative ∧
    (handle_event stateAddItemNoNarrative actionTalkSubject).2.player.inventory.items
      = [itemOne] ∧
    stateAddItemNoNarrative.player.inventory.items = [] ∧
    (handle_event stateAddItemNoNarrative actionTalkSubject).2.config.events
      = stateAddItemNoNarrative.config.events := by decide

/-! ### Claim C2: composition of the outgoing message -/

/-- Projects the room text out of an event-resolution result. -/
def resultRoomText (r : NRResult × State) : Option Str :=
  match r.1 with
  | .ok (.eventSuccess em) => some em.room_text
  | _ => none

/-- The event narrative (id 2). -/
def narTwo : Narrative := { id := 2, text := str "E", description := str "n2" }

/-- An event with `remove_old_narrative = false` and narrative 2. -/
def eventKeepNarrative : Event :=
  { id := 1, location := 1, destination := none, narrative := some 2,
    required_verb := some 8, required_subject := some 1, required_item := none,
    completed := false, add_item := none, remove_old_narrative := false,
    narrative_after := none, remove_item := none, required_events := [],
    add_subject := none, remove_subject := false, move_subject_to_location := none }

/-- A state whose current room (narrative 1, text "R") carries
`eventKeepNarrative`. -/
def stateKeepNarrative : State :=
  { current_room := 1, player := ⟨⟨[]⟩⟩,
    rooms := [{ id := 1, description := str "room one", exits := [], stash := ⟨[]⟩,
                events := [eventKeepNarrative], narrative := 1,
                subjects := [subjectOne] }],
    config := { allowed_verbs := [verbTalk], items := [],
                subjects := [subjectOne], narratives := [narOne, narTwo],
                events := [eventKeepNarrative] } }

/-- C2: the claim states that with `remove_old_narrative` unset the
room text of the outgoing message is the room narrative ("R") and the
event narrative ("E") concatenated with a blank line; on this input the
code returns the event narrative alone as the room text, for both flag
values of `remove_old_narrative` (the concatenation branch of
`return_formated_message` is commented out). -/
theorem c2_room_text_is_event_narrative_only :
    resultRoomText (handle_event stateKeepNarrative actionTalkSubject)
      = some (str "E") ∧
    str "E" ≠ str "R" ++ str "\n\n" ++ str "E" := by decide

/-! ### Claim C6: failed `remove_item` effects -/

/-- An event that removes item 1 (present in the catalog) and renders
narrative 2. -/
def eventRemoveItem : Event :=
  { id := 1, location := 1, destination := none, narrative := some 2,
    required_verb := some 8, required_subject := some 1, required_item := none,
    completed := false, add_item := none, remove_old_narrative := false,
    narrative_after := none, remove_item := some 1, required_events := [],
    add_subject := none, remove_subject := false, move_subject_to_location := none }

/-- The room carrying `eventRemoveItem`. -/
def roomRemoveItem : Room :=
  { id := 1, description := str "room one", exits := [], stash := ⟨[]⟩,
    events := [eventRemoveItem], narrative := 1, subjects := [subjectOne] }

/-- A state whose current room carries `eventRemoveItem` while the
player inventory is empty. -/
def stateRemoveAbsent : State :=
  { current_room := 1, player := ⟨⟨[]⟩⟩, rooms := [roomRemoveItem],
    config := { allowed_verbs := [verbTalk], items := [itemOne],
                subjects := [subjectOne], narratives := [narOne, narTwo],
                events := [eventRemoveItem] } }

/-- C6: the claim (and the spec) state that an event whose
`remove_item` names a catalog item absent from the player inventory
makes the whole action fail with the `NoItem` error; on this input the
program instead aborts (modelled by `panicked`): `player_remove_item`
raises a singly-boxed `NoItem`, which the `Err` arm's
`downcast::<Box<NoItem>>()` can never match, so its `.unwrap()`
panics.  The resolution therefore neither returns the `NoItem` error
nor succeeds with the failure as message text, while the spec's
propagation policy calls for a typed, displayable failure. -/
theorem c6_remove_item_absent_panics :
    handle_event stateRemoveAbsent actionTalkSubject
      = (.error .panicked, stateRemoveAbsent) := by decide

/-! ### Claim C8: pick/drop round trip -/

theorem storage_remove_unique {s : Storage} {x : Item}
    (hx : x ∈ s.items) (huniq : ∀ y ∈ s.items, y.name = x.name → y = x) :
    ∃ idx, s.items.findIdx? (fun i => decide (i.name = x.name)) = some idx ∧
      s.items.get? idx = some x ∧
      s.remove_item x = some (x, ⟨listRemoveAt s.items idx⟩) := by
  cases hf : s.items.findIdx? (fun i => decide (i.name = x.name)) with
  | none =>
      rw [List.findIdx?_eq_none_iff] at hf
      have := hf x hx
      simp at this
  | some idx =>
      obtain ⟨a, hget, hpa⟩ := findIdx?_some_get hf
      rw [decide_eq_true_eq] at hpa
      have hax : a = x := huniq a (get?_mem_of_eq_some hget) hpa
      subst hax
      refine ⟨idx, rfl, hget, ?_⟩
      simp only [Storage.remove_item, hf, hget]

theorem player_remove_item_ok {pl : Player} {x : Item}
    (hx : x ∈ pl.inventory.items) :
    ∃ pl2 msg, player_remove_item pl x = .ok (pl2, msg) := by
  cases hf : pl.inventory.items.findIdx? (fun i => decide (i.name = x.name)) with
  | none =>
      rw [List.findIdx?_eq_none_iff] at hf
      have := hf x hx
      simp at this
  | some idx =>
      obtain ⟨a, hget, hpa⟩ := findIdx?_some_get hf
      exact ⟨{ pl with inventory := ⟨listRemoveAt pl.inventory.items idx⟩ },
             str "\nYou no longer have a " ++ a.name ++ str "\n",
             by simp only [player_remove_item, Storage.remove_item, hf, hget]⟩

theorem find?_updateFirst {l : List Room} {p : Room → Bool} {f : Room → Room} {r : Room}
    (h : l.find? p = some r) (hf : ∀ x, p (f x) = p x) :
    (updateFirst p f l).find? p = some (f r) := by
  induction l with
  | nil => simp at h
  | cons a as ih =>
      by_cases hpa : p a = true
      · rw [List.find?_cons_of_pos _ hpa] at h
        obtain rfl := Option.some.inj h
        simp only [updateFirst, if_pos hpa]
        rw [List.find?_cons_of_pos _ (by rw [hf]; exact hpa)]
      · have hpa2 : p a = false := Bool.eq_false_iff.mpr hpa
        rw [List.find?_cons_of_neg _ (by simp [hpa2])] at h
        simp only [updateFirst, hpa2, if_false, Bool.false_eq_true]
        rw [List.find?_cons_of_neg _ (by simp [hpa2])]
        exact ih h

theorem drop_item_spec {st : State} {x : Item} {room : Room}
    (hroom : st.rooms.find? (fun r => decide (r.id = st.current_room)) = some room)
    (hx : x ∈ st.player.inventory.items) :
    ∃ pl msg, player_remove_item st.player x = .ok (pl, msg) ∧
      drop_item st x = (.ok (.dropItem msg),
        { st with
          player := pl
          rooms := updateFirst (fun r => decide (r.id = st.current_room))
            (fun r => { r with stash := r.stash.add_item x }) st.rooms }) := by
  obtain ⟨pl, msg, hpr⟩ := player_remove_item_ok hx
  refine ⟨pl, msg, hpr, ?_⟩
  simp only [drop_item, hroom]
  rw [if_pos hx]
  simp only [hpr]

/-- C8: picking up a pickable item present in the current room stash
and then dropping it in the same room yields a room stash with the same
membership as before the pick (list order aside).  The world state is
assumed well formed in that the item's name is carried by no other
stash item (item names are unique in the active scope by the data-model
contract). -/
theorem c8_pick_drop_round_trip (st : State) (x : Item) (room : Room)
    (hroom : st.rooms.find? (fun r => decide (r.id = st.current_room)) = some room)
    (hx : x ∈ room.stash.items)
    (hpick : x.can_pick = true)
    (huniq : ∀ y ∈ room.stash.items, y.name = x.name → y = x) :
    ∃ res1 st1 res2 st2 room2,
      pick_item st x = (.ok res1, st1) ∧
      drop_item st1 x = (.ok res2, st2) ∧
      st2.rooms.find? (fun r => decide (r.id = st2.current_room)) = some room2 ∧
      (∀ i, i ∈ room2.stash.items ↔ i ∈ room.stash.items) := by
  obtain ⟨idx, hfidx, hget, hrm⟩ := storage_remove_unique hx huniq
  have hpick_eq : pick_item st x = (.ok (.newItem (str "\nYou now have a " ++ x.name ++ str "\n")),
      { st with
        rooms := updateFirst (fun r => decide (r.id = st.current_room))
          (fun r => { r with stash := ⟨listRemoveAt room.stash.items idx⟩ }) st.rooms,
        player := { st.player with
          inventory := st.player.inventory.add_item x } }) := by
    simp only [pick_item, hroom]
    rw [if_pos hx, if_pos hpick]
    simp only [player_get_item, hroom, hrm]
  set st1 : State :=
    { st with
      rooms := updateFirst (fun r => decide (r.id = st.current_room))
        (fun r => { r with stash := ⟨listRemoveAt room.stash.items idx⟩ }) st.rooms,
      player := { st.player with
        inventory := st.player.inventory.add_item x } } with hst1
  have hroom1 : st1.rooms.find? (fun r => decide (r.id = st1.current_room))
      = some { room with stash := ⟨listRemoveAt room.stash.items idx⟩ } :=
    find?_updateFirst hroom (fun r => rfl)
  have hx1 : x ∈ st1.player.inventory.items := by
    simp [hst1, Storage.add_item]
  obtain ⟨pl, msg, hpr, hdrop⟩ := drop_item_spec hroom1 hx1
  have hroom2 : (updateFirst (fun r => decide (r.id = st1.current_room))
      (fun r => { r with stash := r.stash.add_item x }) st1.rooms).find?
        (fun r => decide (r.id = st1.current_room))
      = some { room with stash := ⟨listRemoveAt room.stash.items idx ++ [x]⟩ } :=
    find?_updateFirst hroom1 (fun r => rfl)
  refine ⟨_, st1, _, _, _, hpick_eq, hdrop, hroom2, ?_⟩
  intro i
  constructor
  · intro hi
    rcases List.mem_append.mp hi with hi | hi
    · exact mem_listRemoveAt hi
    · rw [List.mem_singleton.mp hi]
      exact hx
  · intro hi
    rcases mem_of_mem_listRemoveAt_or_eq hget hi with hi | hi
    · exact List.mem_append.mpr (Or.inl hi)
    · exact List.mem_append.mpr (Or.inr (List.mem_singleton.mpr hi))

/-- A room whose stash holds exactly `itemOne`. -/
def roomWithItem : Room :=
  { id := 1, description := str "room one", exits := [], stash := ⟨[itemOne]⟩,
    events := [], narrative := 1, subjects := [] }

/-- A state whose current room stash holds exactly `itemOne`. -/
def stateWithItem : State :=
  { current_room := 1, player := ⟨⟨[]⟩⟩, rooms := [roomWithItem],
    config := { allowed_verbs := [], items := [itemOne], subjects := [],
                narratives := [narOne], events := [] } }

/-- C8, witness: picking `itemOne` and dropping it again in the same
room restores the stash membership. -/
theorem c8_witness :
    ∃ res1 st1 res2 st2 room2,
      pick_item stateWithItem itemOne = (.ok res1, st1) ∧
      drop_item st1 itemOne = (.ok res2, st2) ∧
      st2.rooms.find? (fun r => decide (r.id = st2.current_room)) = some room2 ∧
      (∀ i, i ∈ room2.stash.items ↔ i ∈ roomWithItem.stash.items) :=
  c8_pick_drop_round_trip stateWithItem itemOne roomWithItem rfl (by decide)
    rfl (by decide)

/-! ### Claim C9: the stash/inventory disjointness invariant -/

/-- All items of all room stashes. -/
def allStashItems (st : State) : List Item :=
  (st.rooms.map (fun room => room.stash.items)).flatten

/-- The data-model invariant: no item is simultaneously a member of
some room's stash and of the player inventory. -/
def stash_inventory_disjoint (st : State) : Prop :=
  ∀ i ∈ allStashItems st, i ∉ st.player.inventory.items

instance (st : State) : Decidable (stash_inventory_disjoint st) := by
  unfold stash_inventory_disjoint
  infer_instance

/-- An event granting item 1 (which sits in the stash of room 2). -/
def eventAddStashedItem : Event :=
  { id := 1, location := 1, destination := none, narrative := some 1,
    required_verb := some 8, required_subject := some 1, required_item := none,
    completed := false, add_item := some 1, remove_old_narrative := false,
    narrative_after := none, remove_item := none, required_events := [],
    add_subject := none, remove_subject := false, move_subject_to_location := none }

/-- A state where the current room (1) carries `eventAddStashedItem`
and room 2's stash holds item 1. -/
def stateAddStashedItem : State :=
  { current_room := 1, player := ⟨⟨[]⟩⟩,
    rooms := [{ id := 1, description := str "room one", exits := [], stash := ⟨[]⟩,
                events := [eventAddStashedItem], narrative := 1,
                subjects := [subjectOne] },
              { id := 2, description := str "room two", exits := [], stash := ⟨[itemOne]⟩,
                events := [], narrative := 1, subjects := [] }],
    config := { allowed_verbs := [verbTalk], items := [itemOne],
                subjects := [subjectOne], narratives := [narOne],
                events := [eventAddStashedItem] } }

/-- Tests whether an event resolution succeeded. -/
def isEventSuccess (r : NRResult × State) : Bool :=
  match r.1 with
  | .ok (.eventSuccess _) => true
  | _ => false

/-- C9, counterexample: the claim states that event resolution
preserves the invariant that no item is in a stash and the inventory at
once; on this state (which satisfies the invariant and the load-time
catalog contract) the event's `add_item` effect puts item 1 into the
inventory while it also sits in room 2's stash, and resolution
succeeds, so the invariant is broken. -/
theorem c9_counterexample :
    stash_inventory_disjoint stateAddStashedItem ∧
    isEventSuccess (handle_event stateAddStashedItem actionTalkSubject) = true ∧
    ¬ stash_inventory_disjoint
        (handle_event stateAddStashedItem actionTalkSubject).2 := by decide

theorem nodup_middle_not_mem {α : Type} {X Y : List α} {c : α}
    (h : (X ++ c :: Y).Nodup) : c ∉ X ∧ c ∉ Y := by
  rw [List.nodup_append] at h
  obtain ⟨h1, h2, h3⟩ := h
  rw [List.nodup_cons] at h2
  exact ⟨fun hc => h3 hc (List.mem_cons_self c Y), h2.1⟩

theorem eq_take_cons_drop {α : Type} {l : List α} {idx : Nat} {a : α}
    (h : l.get? idx = some a) :
    l = l.take idx ++ a :: l.drop (idx + 1) := by
  induction l generalizing idx with
  | nil => simp at h
  | cons b bs ih =>
      cases idx with
      | zero =>
          simp only [List.get?] at h
          obtain rfl := Option.some.inj h
          rfl
      | succ m =>
          simp only [List.get?] at h
          simpa using congrArg (fun t => b :: t) (ih h)

theorem listRemoveAt_eq_append {α : Type} {l : List α} {idx : Nat} {a : α}
    (h : l.get? idx = some a) :
    listRemoveAt l idx = l.take idx ++ l.drop (idx + 1) := by
  induction l generalizing idx with
  | nil => simp at h
  | cons b bs ih =>
      cases idx with
      | zero => rfl
      | succ m =>
          simp only [List.get?] at h
          simpa [listRemoveAt] using congrArg (fun t => b :: t) (ih h)

theorem updateFirst_of_prefix {α : Type} {p : α → Bool} {f : α → α} :
    ∀ (l1 : List α) (r : α) (l2 : List α), (∀ a ∈ l1, p a = false) → p r = true →
      updateFirst p f (l1 ++ r :: l2) = l1 ++ f r :: l2 := by
  intro l1
  induction l1 with
  | nil =>
      intro r l2 _ hr
      simp [updateFirst, hr]
  | cons b bs ih =>
      intro r l2 hb hr
      have hbf : p b = false := hb b (List.mem_cons_self b bs)
      simp only [List.cons_append, updateFirst, hbf, Bool.false_eq_true, if_false,
        List.append_eq]
      rw [ih r l2 (fun a ha => hb a (List.mem_cons_of_mem b ha)) hr]

theorem find?_decomp {α : Type} {l : List α} {p : α → Bool} {r : α}
    (h : l.find? p = some r) :
    ∃ l1 l2, l = l1 ++ r :: l2 ∧ (∀ a ∈ l1, p a = false) ∧ p r = true := by
  rw [List.find?_eq_some] at h
  obtain ⟨hp, l1, l2, heq, hl1⟩ := h
  exact ⟨l1, l2, heq, fun a ha => by simpa using hl1 a ha, hp⟩

theorem allStashItems_eq_of_stash_map {st2 st : State}
    (h : st2.rooms.map Room.stash = st.rooms.map Room.stash) :
    allStashItems st2 = allStashItems st := by
  unfold allStashItems
  have h2 : st2.rooms.map (fun room => room.stash.items)
      = st.rooms.map (fun room => room.stash.items) := by
    have e2 : st2.rooms.map (fun room => room.stash.items)
        = (st2.rooms.map Room.stash).map Storage.items := by
      rw [List.map_map]; rfl
    have e1 : st.rooms.map (fun room => room.stash.items)
        = (st.rooms.map Room.stash).map Storage.items := by
      rw [List.map_map]; rfl
    rw [e2, e1, h]
  rw [h2]

theorem apply_add_item_inventory (st : State) (ev : Event) :
    ∀ i ∈ (apply_add_item st ev).1.player.inventory.items,
      i ∈ st.player.inventory.items ∨
      ∃ iid, ev.add_item = some iid ∧
        st.config.items.find? (fun j => decide (j.id = iid)) = some i := by
  intro i hi
  unfold apply_add_item player_receive_item at hi
  cases ha : ev.add_item with
  | none =>
      simp only [ha] at hi
      exact Or.inl hi
  | some iid =>
      simp only [ha] at hi
      cases hf : st.config.items.find? (fun j => decide (j.id = iid)) with
      | none =>
          simp only [hf] at hi
          exact Or.inl hi
      | some it =>
          simp only [hf, Storage.add_item] at hi
          rcases List.mem_append.mp hi with hi | hi
          · exact Or.inl hi
          · refine Or.inr ⟨iid, rfl, ?_⟩
            rw [List.mem_singleton.mp hi]
            exact hf


theorem storage_remove_item_some {s : Storage} {x r : Item} {s2 : Storage}
    (h : s.remove_item x = some (r, s2)) :
    ∃ idx, s.items.get? idx = some r ∧ s2.items = listRemoveAt s.items idx := by
  unfold Storage.remove_item at h
  split at h
  · rename_i idx hidx
    split at h
    · rename_i found hget
      cases h
      exact ⟨idx, hget, rfl⟩
    · exact absurd h (by simp)
  · exact absurd h (by simp)

theorem player_remove_item_sub {pl pl2 : Player} {x : Item} {msg : Str}
    (h : player_remove_item pl x = .ok (pl2, msg)) :
    ∀ i ∈ pl2.inventory.items, i ∈ pl.inventory.items := by
  unfold player_remove_item at h
  cases hrm : pl.inventory.remove_item x with
  | none =>
      rw [hrm] at h
      exact absurd h (by simp)
  | some pr =>
      obtain ⟨old, inv⟩ := pr
      simp only [hrm] at h
      obtain ⟨h1, h2⟩ := Prod.mk.injEq .. |>.mp (Except.ok.inj h)
      obtain ⟨idx, hget, hinv⟩ := storage_remove_item_some hrm
      intro i hi
      rw [← h1] at hi
      simp only [hinv] at hi
      exact mem_listRemoveAt hi

theorem apply_remove_item_ok_state {st : State} {ev : Event} {st2 : State} {msgs : List Str}
    (h : apply_remove_item st ev = .ok (st2, msgs)) :
    st2.rooms = st.rooms ∧ st2.config = st.config ∧
      ∀ i ∈ st2.player.inventory.items, i ∈ st.player.inventory.items := by
  unfold apply_remove_item at h
  split at h
  · exact absurd h (by simp)
  · split at h
    · split at h
      · split at h
        · rename_i pl msg hpr
          cases h
          exact ⟨rfl, rfl, player_remove_item_sub hpr⟩
        · exact Except.noConfusion h
      · cases h
        exact ⟨rfl, rfl, fun i hi => hi⟩
    · cases h
      exact ⟨rfl, rfl, fun i hi => hi⟩

theorem apply_subject_effects_ok_state {st : State} {cur : Nat}
    {subject : Option Subject} {ev : Event} {st2 : State}
    (h : apply_subject_effects st cur subject ev = .ok st2) :
    st2.rooms.map Room.stash = st.rooms.map Room.stash ∧ st2.player = st.player := by
  unfold apply_subject_effects at h
  split at h
  · split at h
    · exact absurd h (by simp)
    · rename_i s
      split at h
      · rename_i loc hloc
        split at h
        · cases h
          constructor
          · rw [updateFirst_map (f := fun room => room.add_subject s)
                (g := Room.stash) (fun room => rfl),
              updateFirst_map (f := fun room => room.remove_subject s.id)
                (g := Room.stash) (fun room => rfl)]
          · rfl
        · exact absurd h (by simp)
      · cases h
        constructor
        · exact updateFirst_map (f := fun room => room.remove_subject s.id)
            (g := Room.stash) (fun room => rfl) st.rooms
        · rfl
  · cases h
    exact ⟨rfl, rfl⟩

theorem apply_subject_effects_err_state {st : State} {cur : Nat}
    {subject : Option Subject} {ev : Event} {e : NRError} {st2 : State}
    (h : apply_subject_effects st cur subject ev = .error (e, st2)) :
    st2.rooms.map Room.stash = st.rooms.map Room.stash ∧ st2.player = st.player := by
  unfold apply_subject_effects at h
  split at h
  · split at h
    · cases h
      exact ⟨rfl, rfl⟩
    · rename_i s
      split at h
      · split at h
        · exact absurd h (by simp)
        · cases h
          constructor
          · exact updateFirst_map (f := fun room => room.remove_subject s.id)
              (g := Room.stash) (fun room => rfl) st.rooms
          · rfl
      · exact absurd h (by simp)
  · exact absurd h (by simp)

theorem apply_add_subject_ok_state {st : State} {cur : Nat} {ev : Event} {st2 : State}
    (h : apply_add_subject st cur ev = .ok st2) :
    st2.rooms.map Room.stash = st.rooms.map Room.stash ∧ st2.player = st.player := by
  unfold apply_add_subject at h
  split at h
  · split at h
    · exact absurd h (by simp)
    · rename_i s hs
      cases h
      constructor
      · exact updateFirst_map (f := fun room => room.add_subject s)
          (g := Room.stash) (fun room => rfl) st.rooms
      · rfl
  · cases h
    exact ⟨rfl, rfl⟩

theorem apply_add_subject_err_state {st : State} {cur : Nat} {ev : Event}
    {e : NRError} {st2 : State}
    (h : apply_add_subject st cur ev = .error (e, st2)) :
    st2.rooms.map Room.stash = st.rooms.map Room.stash ∧ st2.player = st.player := by
  unfold apply_add_subject at h
  split at h
  · split at h
    · cases h
      exact ⟨rfl, rfl⟩
    · exact absurd h (by simp)
  · exact absurd h (by simp)

theorem complete_event_step_rooms_player (st : State) (ev : Event) :
    (complete_event_step st ev).rooms = st.rooms ∧
    (complete_event_step st ev).player = st.player := by
  unfold complete_event_step
  split
  · split
    · exact ⟨rfl, rfl⟩
    · exact ⟨rfl, rfl⟩
  · exact ⟨rfl, rfl⟩

theorem handle_movement_rooms_player (st : State) (mv : Option Directions) :
    (handle_movement st mv).2.rooms = st.rooms ∧
    (handle_movement st mv).2.player = st.player := by
  unfold handle_movement
  cases mv with
  | none => exact ⟨rfl, rfl⟩
  | some d =>
      cases hmv : move_to_direction st d with
      | error e =>
          simp [hmv]
      | ok st1 =>
          have hst1 : st1.rooms = st.rooms ∧ st1.player = st.player := by
            unfold move_to_direction at hmv
            split at hmv
            · exact absurd hmv (by simp)
            · split at hmv
              · cases hmv
                exact ⟨rfl, rfl⟩
              · exact absurd hmv (by simp)
          simp only [hmv]
          split
          · exact hst1
          · split
            · exact hst1
            · split
              · exact hst1
              · exact hst1

theorem filter_events_mem {room : Room} {act : Action} {ii : Option Item}
    {s : Option Subject} {e : Event} (h : e ∈ filter_events room act ii s) :
    e ∈ room.events := by
  unfold filter_events at h
  split at h
  · exact List.mem_of_mem_filter h
  · exact List.mem_of_mem_filter h
  · exact List.mem_of_mem_filter h
  · simp at h

theorem first_uncompleted_mem {cfg evs : List Event} {ev : Event}
    (h : first_uncompleted cfg evs = some ev) : ev ∈ evs :=
  List.mem_of_find?_eq_some h

/-- The data-authoring side condition for event resolution: no event
reachable in a room grants (via `add_item`) an item that currently sits
in some room stash. -/
def add_items_not_stashed (st : State) : Prop :=
  ∀ room ∈ st.rooms, ∀ ev ∈ room.events, ∀ iid, ev.add_item = some iid →
    ∀ it, st.config.items.find? (fun j => decide (j.id = iid)) = some it →
      it ∉ allStashItems st

theorem handle_event_invariant (st : State) (act : Action)
    (hdisj : stash_inventory_disjoint st)
    (hadd : add_items_not_stashed st) :
    stash_inventory_disjoint (handle_event st act).2 := by
  unfold handle_event
  cases hroom : st.rooms.find? (fun room => decide (room.id = st.current_room)) with
  | none => exact hdisj
  | some room =>
      dsimp only
      cases hsel : first_uncompleted st.config.events
          (filter_events room act (extract_item_subject st act).1
            (extract_item_subject st act).2) with
      | none =>
          dsimp only
          cases (extract_item_subject st act).2 with
          | none => exact hdisj
          | some s => exact hdisj
      | some ev =>
          dsimp only
          have hev_room : ev ∈ room.events := filter_events_mem (first_uncompleted_mem hsel)
          have hroom_mem : room ∈ st.rooms := List.mem_of_find?_eq_some hroom
          by_cases hreq : required_events_completed st.config.events ev = true
          · rw [if_pos hreq]
            have hA_stash : allStashItems (apply_add_item st ev).1 = allStashItems st :=
              allStashItems_eq_of_stash_map (by rw [apply_add_item_rooms])
            have hdisjA : stash_inventory_disjoint (apply_add_item st ev).1 := by
              intro i hi hiv
              rw [hA_stash] at hi
              rcases apply_add_item_inventory st ev i hiv with h1 | ⟨iid, haddi, hfind⟩
              · exact hdisj i hi h1
              · exact hadd room hroom_mem ev hev_room iid haddi i hfind hi
            cases hB : apply_remove_item (apply_add_item st ev).1 ev with
            | error e =>
                dsimp only
                exact hdisjA
            | ok pr =>
                obtain ⟨stB, msgsB⟩ := pr
                obtain ⟨hB_rooms, hB_cfg, hB_inv⟩ := apply_remove_item_ok_state hB
                have hdisjB : stash_inventory_disjoint stB := by
                  intro i hi hiv
                  rw [@allStashItems_eq_of_stash_map stB
                    (apply_add_item st ev).1 (by rw [hB_rooms])] at hi
                  exact hdisjA i hi (hB_inv i hiv)
                dsimp only
                cases hC : apply_subject_effects stB st.current_room
                    (extract_item_subject st act).2 ev with
                | error es =>
                    obtain ⟨e, stErr⟩ := es
                    obtain ⟨hstash, hpl⟩ := apply_subject_effects_err_state hC
                    dsimp only
                    intro i hi hiv
                    rw [allStashItems_eq_of_stash_map hstash] at hi
                    rw [hpl] at hiv
                    exact hdisjB i hi hiv
                | ok stC =>
                    obtain ⟨hC_stash, hC_pl⟩ := apply_subject_effects_ok_state hC
                    have hdisjC : stash_inventory_disjoint stC := by
                      intro i hi hiv
                      rw [allStashItems_eq_of_stash_map hC_stash] at hi
                      rw [hC_pl] at hiv
                      exact hdisjB i hi hiv
                    dsimp only
                    cases hD : apply_add_subject stC st.current_room ev with
                    | error es =>
                        obtain ⟨e, stErr⟩ := es
                        obtain ⟨hstash, hpl⟩ := apply_add_subject_err_state hD
                        dsimp only
                        intro i hi hiv
                        rw [allStashItems_eq_of_stash_map hstash] at hi
                        rw [hpl] at hiv
                        exact hdisjC i hi hiv
                    | ok stD =>
                        obtain ⟨hD_stash, hD_pl⟩ := apply_add_subject_ok_state hD
                        have hdisjD : stash_inventory_disjoint stD := by
                          intro i hi hiv
                          rw [allStashItems_eq_of_stash_map hD_stash] at hi
                          rw [hD_pl] at hiv
                          exact hdisjC i hi hiv
                        have hdisjE : stash_inventory_disjoint (apply_narrative_swap stD ev) := by
                          intro i hi hiv
                          rw [allStashItems_eq_of_stash_map
                            (apply_narrative_swap_stash stD ev)] at hi
                          rw [apply_narrative_swap_player stD ev] at hiv
                          exact hdisjD i hi hiv
                        dsimp only
                        cases return_formated_message ev (apply_narrative_swap stD ev)
                            (assembleEventMessage ((apply_add_item st ev).2 ++ msgsB)) with
                        | error e => exact hdisjE
                        | ok result =>
                            dsimp only
                            obtain ⟨hrooms, hpl⟩ := complete_event_step_rooms_player
                              (apply_narrative_swap stD ev) ev
                            intro i hi hiv
                            rw [@allStashItems_eq_of_stash_map
                              (complete_event_step (apply_narrative_swap stD ev) ev)
                              (apply_narrative_swap stD ev) (by rw [hrooms])] at hi
                            rw [hpl] at hiv
                            exact hdisjE i hi hiv
          · rw [if_neg hreq]
            exact hdisj

theorem storage_remove_item_shape {s : Storage} {x r : Item} {s2 : Storage}
    (h : s.remove_item x = some (r, s2)) :
    ∃ idx, s.items.findIdx? (fun i => decide (i.name = x.name)) = some idx ∧
      s.items.get? idx = some r ∧ r.name = x.name ∧
      s2.items = listRemoveAt s.items idx := by
  unfold Storage.remove_item at h
  split at h
  · rename_i idx hidx
    split at h
    · rename_i found hget
      cases h
      obtain ⟨a, hget2, hpa⟩ := findIdx?_some_get hidx
      have har : a = r := Option.some.inj (hget2.symm.trans hget)
      subst har
      exact ⟨idx, hidx, hget, by simpa using hpa, rfl⟩
    · exact absurd h (by simp)
  · exact absurd h (by simp)

theorem player_remove_item_shape {pl pl2 : Player} {x : Item} {msg : Str}
    (h : player_remove_item pl x = .ok (pl2, msg)) :
    ∃ idx z, pl.inventory.items.findIdx? (fun i => decide (i.name = x.name)) = some idx ∧
      pl.inventory.items.get? idx = some z ∧ z.name = x.name ∧
      pl2.inventory.items = listRemoveAt pl.inventory.items idx := by
  unfold player_remove_item at h
  cases hrm : pl.inventory.remove_item x with
  | none =>
      rw [hrm] at h
      exact absurd h (by simp)
  | some pr =>
      obtain ⟨old, inv⟩ := pr
      simp only [hrm] at h
      obtain ⟨h1, h2⟩ := Prod.mk.injEq .. |>.mp (Except.ok.inj h)
      obtain ⟨idx, hidx, hget, hname, hinv⟩ := storage_remove_item_shape hrm
      exact ⟨idx, old, hidx, hget, hname, by rw [← h1]; exact hinv⟩

theorem not_mem_removeAt_of_names_nodup {l : List Item} {idx : Nat} {a : Item}
    (hget : l.get? idx = some a) (hnd : (l.map Item.name).Nodup) :
    a ∉ listRemoveAt l idx := by
  intro hmem
  rw [listRemoveAt_eq_append hget] at hmem
  have hsplit := eq_take_cons_drop hget
  have hnd2 : ((l.take idx).map Item.name ++ a.name :: (l.drop (idx + 1)).map Item.name).Nodup := by
    rw [hsplit] at hnd
    simpa [List.map_append] using hnd
  obtain ⟨hL, hR⟩ := nodup_middle_not_mem hnd2
  rcases List.mem_append.mp hmem with hmem | hmem
  · exact hL (List.mem_map_of_mem Item.name hmem)
  · exact hR (List.mem_map_of_mem Item.name hmem)

theorem pick_item_invariant (st : State) (x : Item)
    (hdisj : stash_inventory_disjoint st)
    (hnd : ((allStashItems st).map Item.name).Nodup) :
    stash_inventory_disjoint (pick_item st x).2 := by
  unfold pick_item
  cases hroom : st.rooms.find? (fun room => decide (room.id = st.current_room)) with
  | none => exact hdisj
  | some room =>
      dsimp only
      by_cases hmem : x ∈ room.stash.items
      · rw [if_pos hmem]
        by_cases hcp : x.can_pick = true
        · rw [if_pos hcp]
          unfold player_get_item
          cases hrm : room.stash.remove_item x with
          | none =>
              simp only [hroom, hrm]
              exact hdisj
          | some pr =>
              obtain ⟨r, s2⟩ := pr
              obtain ⟨idx, hidx, hget, hname, hs2⟩ := storage_remove_item_shape hrm
              simp only [hroom, hrm]
              obtain ⟨l1, l2, hl, hl1, hp⟩ := find?_decomp hroom
              have hupd := updateFirst_of_prefix
                (f := fun room2 => { room2 with stash := s2 }) l1 room l2 hl1 hp
              have hall : allStashItems st
                  = (l1.map (fun r2 => r2.stash.items)).flatten ++ room.stash.items
                    ++ (l2.map (fun r2 => r2.stash.items)).flatten := by
                unfold allStashItems
                rw [hl]
                simp [List.append_assoc]
              have hsplit := eq_take_cons_drop hget
              have hnd2 : (((l1.map (fun r2 => r2.stash.items)).flatten
                    ++ room.stash.items.take idx).map Item.name
                  ++ r.name :: ((room.stash.items.drop (idx + 1)
                    ++ (l2.map (fun r2 => r2.stash.items)).flatten).map Item.name)).Nodup := by
                have hre : allStashItems st
                    = ((l1.map (fun r2 => r2.stash.items)).flatten
                        ++ room.stash.items.take idx)
                      ++ r :: (room.stash.items.drop (idx + 1)
                        ++ (l2.map (fun r2 => r2.stash.items)).flatten) := by
                  rw [hall]
                  conv_lhs => rw [hsplit]
                  simp [List.append_assoc]
                rw [hre] at hnd
                simpa [List.map_append] using hnd
              obtain ⟨hnotL, hnotR⟩ := nodup_middle_not_mem hnd2
              intro i hi hiv
              have hst2 : allStashItems
                  { st with
                    rooms := updateFirst (fun room2 => decide (room2.id = st.current_room))
                      (fun room2 => { room2 with stash := s2 }) st.rooms
                    player := { st.player with
                      inventory := st.player.inventory.add_item r } }
                  = (l1.map (fun r2 => r2.stash.items)).flatten ++ s2.items
                    ++ (l2.map (fun r2 => r2.stash.items)).flatten := by
                unfold allStashItems
                dsimp only
                rw [hl, hupd]
                simp [List.append_assoc]
              rw [hst2] at hi
              simp only [Storage.add_item] at hiv
              rcases List.mem_append.mp hiv with hiv | hiv
              · -- the item was already in the inventory: contradict the old invariant
                have hiold : i ∈ allStashItems st := by
                  rw [hall]
                  rcases List.mem_append.mp hi with hi | hi
                  · rcases List.mem_append.mp hi with hi | hi
                    · exact List.mem_append.mpr (Or.inl (List.mem_append.mpr (Or.inl hi)))
                    · have : i ∈ room.stash.items := by
                        rw [hs2] at hi
                        exact mem_listRemoveAt hi
                      exact List.mem_append.mpr (Or.inl (List.mem_append.mpr (Or.inr this)))
                  · exact List.mem_append.mpr (Or.inr hi)
                exact hdisj i hiold hiv
              · -- the item is the removed one: its name occurs nowhere else
                obtain rfl := List.mem_singleton.mp hiv
                rw [hs2, listRemoveAt_eq_append hget] at hi
                rcases List.mem_append.mp hi with hi | hi
                · rcases List.mem_append.mp hi with hi | hi
                  · exact hnotL (List.mem_map_of_mem Item.name
                      (List.mem_append.mpr (Or.inl hi)))
                  · rcases List.mem_append.mp hi with hi | hi
                    · exact hnotL (List.mem_map_of_mem Item.name
                        (List.mem_append.mpr (Or.inr hi)))
                    · exact hnotR (List.mem_map_of_mem Item.name
                        (List.mem_append.mpr (Or.inl hi)))
                · exact hnotR (List.mem_map_of_mem Item.name
                    (List.mem_append.mpr (Or.inr hi)))
        · rw [if_neg hcp]
          exact hdisj
      · rw [if_neg hmem]
        exact hdisj

theorem drop_item_invariant (st : State) (x : Item)
    (hdisj : stash_inventory_disjoint st)
    (hndinv : (st.player.inventory.items.map Item.name).Nodup) :
    stash_inventory_disjoint (drop_item st x).2 := by
  unfold drop_item
  cases hroom : st.rooms.find? (fun room => decide (room.id = st.current_room)) with
  | none => exact hdisj
  | some room =>
      dsimp only
      by_cases hmem : x ∈ st.player.inventory.items
      · rw [if_pos hmem]
        cases hpr : player_remove_item st.player x with
        | error e =>
            dsimp only
            exact hdisj
        | ok pr =>
            obtain ⟨pl, msg⟩ := pr
            obtain ⟨idx, z, hidx, hget, hzname, hpl⟩ := player_remove_item_shape hpr
            have hzx : z = x :=
              List.inj_on_of_nodup_map hndinv (get?_mem_of_eq_some hget) hmem hzname
            have hxout : x ∉ pl.inventory.items := by
              rw [hpl, ← hzx]
              exact not_mem_removeAt_of_names_nodup hget hndinv
            obtain ⟨l1, l2, hl, hl1, hp⟩ := find?_decomp hroom
            have hupd := updateFirst_of_prefix
              (f := fun room2 => { room2 with stash := room2.stash.add_item x }) l1 room l2 hl1 hp
            simp only [hpr]
            intro i hi hiv
            have hst2 : allStashItems
                { st with
                  player := pl
                  rooms := updateFirst (fun room2 => decide (room2.id = st.current_room))
                    (fun room2 => { room2 with stash := room2.stash.add_item x }) st.rooms }
                = (l1.map (fun r2 => r2.stash.items)).flatten
                  ++ (room.stash.items ++ [x])
                  ++ (l2.map (fun r2 => r2.stash.items)).flatten := by
              unfold allStashItems
              dsimp only
              rw [hl, hupd]
              simp [Storage.add_item, List.append_assoc]
            rw [hst2] at hi
            have hall : allStashItems st
                = (l1.map (fun r2 => r2.stash.items)).flatten ++ room.stash.items
                  ++ (l2.map (fun r2 => r2.stash.items)).flatten := by
              unfold allStashItems
              rw [hl]
              simp [List.append_assoc]
            have hiv2 : i ∈ st.player.inventory.items := by
              rw [hpl] at hiv
              exact mem_listRemoveAt hiv
            rcases List.mem_append.mp hi with hi | hi
            · rcases List.mem_append.mp hi with hi | hi
              · exact hdisj i (by
                  rw [hall]
                  exact List.mem_append.mpr (Or.inl (List.mem_append.mpr (Or.inl hi)))) hiv2
              · rcases List.mem_append.mp hi with hi | hi
                · exact hdisj i (by
                    rw [hall]
                    exact List.mem_append.mpr (Or.inl (List.mem_append.mpr (Or.inr hi)))) hiv2
                · obtain rfl := List.mem_singleton.mp hi
                  exact hxout hiv
            · exact hdisj i (by
                rw [hall]
                exact List.mem_append.mpr (Or.inr hi)) hiv2
      · rw [if_neg hmem]
        exact hdisj

/-- C9, amended: movement, pick and drop preserve the invariant that
no item is simultaneously in a room stash and in the player inventory
(pick and drop under the data-model name-uniqueness contract: no two
stash items, respectively inventory items, share a name); event
resolution preserves it provided no reachable event grants, via
`add_item`, an item currently sitting in some room stash — without that
proviso the claim fails (see the counterexample). -/
theorem c9_invariant_preservation :
    (∀ st mv, stash_inventory_disjoint st →
        stash_inventory_disjoint (handle_movement st mv).2) ∧
    (∀ st x, stash_inventory_disjoint st →
        ((allStashItems st).map Item.name).Nodup →
        stash_inventory_disjoint (pick_item st x).2) ∧
    (∀ st x, stash_inventory_disjoint st →
        (st.player.inventory.items.map Item.name).Nodup →
        stash_inventory_disjoint (drop_item st x).2) ∧
    (∀ st act, stash_inventory_disjoint st → add_items_not_stashed st →
        stash_inventory_disjoint (handle_event st act).2) := by
  refine ⟨?_, pick_item_invariant, drop_item_invariant, handle_event_invariant⟩
  intro st mv hdisj
  obtain ⟨hr, hp⟩ := handle_movement_rooms_player st mv
  intro i hi hiv
  rw [@allStashItems_eq_of_stash_map (handle_movement st mv).2 st
    (by rw [hr])] at hi
  rw [hp] at hiv
  exact hdisj i hi hiv

/-- C9, witness for the amended claim: concrete instances of all four
preservation statements. -/
theorem c9_witness :
    stash_inventory_disjoint (handle_movement stateNoEvents (some .north)).2 ∧
    stash_inventory_disjoint (pick_item stateWithItem itemOne).2 ∧
    stash_inventory_disjoint (drop_item stateWithItem itemOne).2 ∧
    stash_inventory_disjoint (handle_event stateNoEvents actionTalkSubject).2 :=
  ⟨c9_invariant_preservation.1 stateNoEvents (some .north) (by decide),
   c9_invariant_preservation.2.1 stateWithItem itemOne (by decide) (by decide),
   c9_invariant_preservation.2.2.1 stateWithItem itemOne (by decide) (by decide),
   c9_invariant_preservation.2.2.2 stateNoEvents actionTalkSubject (by decide)
     (by
       intro room2 hr ev hev iid hiid it hit hmem
       rw [List.mem_singleton.mp hr] at hev
       simp [roomNoEvents] at hev)⟩

/-! ### Claim C10: totality of input processing -/

theorem findCapture_bounds {cs : Str} {s e : Nat} {t : Str}
    (h : findCapture cs = some (s, e, t)) : s < e ∧ e ≤ cs.length := by
  unfold findCapture at h
  cases hs : cs.findIdx? (fun c => decide (c = '{')) with
  | none => rw [hs] at h; exact Option.noConfusion h
  | some s0 =>
      rw [hs] at h
      dsimp only at h
      cases hk : (cs.drop (s0 + 1)).findIdx? (fun c => decide (c = '}')) with
      | none => rw [hk] at h; exact Option.noConfusion h
      | some k =>
          rw [hk] at h
          dsimp only at h
          have hs0 := findIdx?_some_lt hs
          have hklt := findIdx?_some_lt hk
          rw [List.length_drop] at hklt
          simp only [Option.some.injEq, Prod.mk.injEq] at h
          obtain ⟨rfl, rfl, -⟩ := h
          omega

theorem replaceCap_take_eq {cs X : Str} {s e : Nat} {t : Str}
    (hse : s < e) (he : e ≤ cs.length) :
    replaceCap (s, e, t) (cs.take e ++ X) = cs.take s ++ t ++ X := by
  have hlen : (cs.take e).length = e := List.length_take_of_le he
  have h1 : (cs.take e ++ X).take s = (cs.take e).take s :=
    List.take_append_of_le_length (by rw [hlen]; omega)
  have h2 := List.drop_left (cs.take e) X
  rw [hlen] at h2
  unfold replaceCap
  dsimp only
  rw [h1, h2, List.take_take, min_eq_left (Nat.le_of_lt hse)]

theorem foldr_replaceCap_shift {e : Nat} {cs : Str} (he : e ≤ cs.length) :
    ∀ L : List (Nat × Nat × Str),
      List.foldr replaceCap cs (L.map (fun c => (c.1 + e, c.2.1 + e, c.2.2)))
        = cs.take e ++ List.foldr replaceCap (cs.drop e) L := by
  intro L
  induction L with
  | nil => simp
  | cons cap L ih =>
      obtain ⟨a, b, t⟩ := cap
      simp only [List.map_cons, List.foldr_cons]
      rw [ih]
      have hlen : (cs.take e).length = e := List.length_take_of_le he
      unfold replaceCap
      dsimp only
      rw [Nat.add_comm a e, Nat.add_comm b e]
      generalize List.foldr replaceCap (cs.drop e) L = R
      generalize hA : cs.take e = A
      rw [hA] at hlen
      rw [← hlen, List.take_append a, List.drop_append b]
      simp [List.append_assoc]

theorem foldr_captures_strip : ∀ (fuel : Nat) (cs : Str),
    List.foldr replaceCap cs (capturesFrom fuel cs) = specStripLineFrom fuel cs := by
  intro fuel
  induction fuel with
  | zero => intro cs; rfl
  | succ fuel ih =>
      intro cs
      unfold capturesFrom specStripLineFrom
      cases hf : findCapture cs with
      | none => rfl
      | some cap =>
          obtain ⟨s, e, t⟩ := cap
          dsimp only
          obtain ⟨hse, he⟩ := findCapture_bounds hf
          rw [List.foldr_cons, foldr_replaceCap_shift he, ih (cs.drop e),
            replaceCap_take_eq hse he]

theorem foldr_captures_stripLine (cs : Str) :
    List.foldr replaceCap cs (captures cs) = specStripLine cs :=
  foldr_captures_strip cs.length cs

theorem foldl_caps_spec (corpus : List Str) :
    ∀ (L : List (Nat × Nat × Str)) (txt : Str) (ws : List Str),
      L.foldl (fun acc cap =>
          if cap.2.2 ∈ corpus then (replaceCap cap acc.1, acc.2 ++ [cap.2.2])
          else (replaceCap cap acc.1, acc.2)) (txt, ws)
        = (L.foldl (fun t cap => replaceCap cap t) txt,
           ws ++ (L.map (fun c => c.2.2)).filter (fun w => decide (w ∈ corpus))) := by
  intro L
  induction L with
  | nil => intro txt ws; simp
  | cons cap L ih =>
      intro txt ws
      simp only [List.foldl_cons, List.map_cons, List.filter_cons]
      by_cases hc : cap.2.2 ∈ corpus
      · rw [if_pos hc, ih]
        simp [hc]
      · rw [if_neg hc, ih]
        simp [hc]

theorem processLine_eq (corpus : List Str) (line : Str) :
    processLine corpus line
      = (specStripLine line,
         ((captures line).reverse.map (fun c => c.2.2)).filter
           (fun w => decide (w ∈ corpus))) := by
  unfold processLine
  dsimp only
  by_cases hlen : (captures line).length > 0
  · rw [if_pos hlen, foldl_caps_spec corpus, List.foldl_reverse]
    rw [show (fun (x : Nat × Nat × Str) (y : Str) => replaceCap x y) = replaceCap from rfl]
    rw [foldr_captures_stripLine]
    simp
  · rw [if_neg hlen]
    have hnil : captures line = [] :=
      List.length_eq_zero.mp (Nat.eq_zero_of_not_pos hlen)
    have hsl := foldr_captures_stripLine line
    rw [hnil] at hsl
    simp only [List.foldr_nil] at hsl
    rw [hnil, ← hsl]
    simp

/-- C7 (confirmed): for every narrative text and highlight corpus,
`process_templated_text` replaces every brace-delimited span found by
the non-greedy matching with its bare enclosed text — exactly the
spec-side left-to-right stripping `specStripText`, braces removed in
all cases — and a word appears in the templated-words list if and only
if it is the enclosed text of some span of some line and is a member
of the corpus; this holds with any number of spans per line. -/
theorem c7_template_replacement (text : Str) (corpus : List Str) :
    (process_templated_text text corpus).1 = specStripText text ∧
    ∀ w, w ∈ (process_templated_text text corpus).2
      ↔ (w ∈ captureTexts text ∧ w ∈ corpus) := by
  unfold process_templated_text specStripText captureTexts
  dsimp only
  constructor
  · congr 1
    rw [List.map_map]
    refine List.map_congr_left ?_
    intro line hline
    show (processLine corpus line).1 = specStripLine line
    rw [processLine_eq]
  · intro w
    simp only [List.mem_flatten]
    constructor
    · rintro ⟨l, hl, hwl⟩
      simp only [List.map_map, List.mem_map] at hl
      obtain ⟨line, hline, rfl⟩ := hl
      have hpl : (Prod.snd ∘ processLine corpus) line
          = ((captures line).reverse.map (fun c => c.2.2)).filter
              (fun w => decide (w ∈ corpus)) := by
        show (processLine corpus line).2 = _
        rw [processLine_eq]
      rw [hpl, List.mem_filter, List.map_reverse, List.mem_reverse] at hwl
      obtain ⟨hmem, hdec⟩ := hwl
      exact ⟨⟨(captures line).map (fun c => c.2.2),
        List.mem_map_of_mem _ hline, hmem⟩, of_decide_eq_true hdec⟩
    · rintro ⟨⟨l, hl, hwl⟩, hcorp⟩
      rw [List.mem_map] at hl
      obtain ⟨line, hline, rfl⟩ := hl
      refine ⟨(processLine corpus line).2, ?_, ?_⟩
      · simp only [List.map_map]
        exact List.mem_map_of_mem _ hline
      · rw [processLine_eq]
        dsimp only
        rw [List.mem_filter, List.map_reverse, List.mem_reverse]
        exact ⟨hwl, decide_eq_true hcorp⟩
